import Mathlib

/-!
Verification development for the LightPillar background-effect component
(src/js/lightpillar.js).  The JavaScript class is shallowly embedded:

* option handling, the animation tick, the resize handler, the pointer
  throttle, teardown and initialization are modelled as pure functions over
  exact rationals and explicit state records;
* the fragment-shader raymarch is modelled over the real numbers, with the
  GLSL built-ins `cos`, `sin`, `length`, `normalize`, `pow` interpreted as
  their exact real counterparts;
* a verified fixed-point interval-arithmetic kernel (with rigorous
  enclosures for `Real.cos`, `Real.sin` and `Real.sqrt`) is used to decide
  concrete numeric questions about the raymarch.
-/

namespace LightPillar

/-! ## Option handling (constructor lines 20-32)

The constructor merges the caller's options bag with defaults using the
JavaScript `||` operator.  For a numeric field, `options.x || d` yields `d`
both when the field is absent and when it is `0` (zero is falsy); a negative
value is truthy and is kept.  For a boolean field `options.x || d` is plain
disjunction, and for a string field the empty string is the falsy case. -/

/-- JS `v || d` for an optional numeric option: absent and `0` fall back to
the default, every other value (including negative ones) is kept. -/
def orDefaultNum (v : Option ℚ) (d : ℚ) : ℚ :=
  match v with
  | none => d
  | some x => if x = 0 then d else x

/-- JS `v || d` for an optional boolean option. -/
def orDefaultBool (v : Option Bool) (d : Bool) : Bool :=
  match v with
  | none => d
  | some b => b || d

/-- JS `v || d` for an optional string option (the empty string is falsy). -/
def orDefaultStr (v : Option String) (d : String) : String :=
  match v with
  | none => d
  | some s => if s = "" then d else s

/-- The caller-supplied options bag (`options` parameter of the
constructor); every recognized field may be absent. -/
structure OptionsBag where
  topColor : Option String := none
  bottomColor : Option String := none
  intensity : Option ℚ := none
  rotationSpeed : Option ℚ := none
  interactive : Option Bool := none
  glowAmount : Option ℚ := none
  pillarWidth : Option ℚ := none
  pillarHeight : Option ℚ := none
  noiseIntensity : Option ℚ := none
  pillarRotation : Option ℚ := none
  mixBlendMode : Option String := none

/-- The resolved `this.options` record stored by the constructor. -/
structure Options where
  topColor : String
  bottomColor : String
  intensity : ℚ
  rotationSpeed : ℚ
  interactive : Bool
  glowAmount : ℚ
  pillarWidth : ℚ
  pillarHeight : ℚ
  noiseIntensity : ℚ
  pillarRotation : ℚ
  mixBlendMode : String
deriving DecidableEq

/-- Lines 20-32 of the constructor: `this.options = { topColor:
options.topColor || '#5227FF', ... }`.  There is no validation step; every
field is only passed through `||`-defaulting. -/
def mkOptions (o : OptionsBag) : Options where
  topColor := orDefaultStr o.topColor "#5227FF"
  bottomColor := orDefaultStr o.bottomColor "#FF9FFC"
  intensity := orDefaultNum o.intensity 1
  rotationSpeed := orDefaultNum o.rotationSpeed 0.3
  interactive := orDefaultBool o.interactive false
  glowAmount := orDefaultNum o.glowAmount 0.005
  pillarWidth := orDefaultNum o.pillarWidth 3
  pillarHeight := orDefaultNum o.pillarHeight 0.4
  noiseIntensity := orDefaultNum o.noiseIntensity 0.5
  pillarRotation := orDefaultNum o.pillarRotation 0
  mixBlendMode := orDefaultStr o.mixBlendMode "normal"

/-- Outcome of running the constructor body: either the early `return` on a
missing container (no exception is thrown, the instance is just left
unpopulated), or an initialized instance carrying the resolved options.
The constructor contains no `throw` statement and defines no error class,
so no other outcome exists. -/
inductive ConstructorOutcome where
  | missingContainer
  | initialized (opts : Options)
deriving DecidableEq

/-- The constructor (lines 4-39): look up the container; on failure log and
return early, otherwise resolve the options.  (The zero-dimension check on
lines 12-17 only issues `console.warn` and does not alter control flow.) -/
def constructorRun (containerFound : Bool) (bag : OptionsBag) : ConstructorOutcome :=
  if containerFound then ConstructorOutcome.initialized (mkOptions bag)
  else ConstructorOutcome.missingContainer

/-! ## Animation tick and resize handling (lines 267-293)

`animate` advances `this.time` by the fixed increment `0.016` scaled by
`this.options.rotationSpeed`, copies it into the `uTime` uniform and issues
one render — guarded only on the existence of material, renderer, scene and
camera.  The debounced body of `handleResize` re-reads the container's
client size and propagates it to the renderer and the `uResolution`
uniform, guarded only on renderer/material/container existence; the new
width and height are not checked for positivity. -/

/-- The mutable fields of an instance that the frame loop and the resize
handler touch.  The four `has*` flags model whether the corresponding
object (`this.material` …) exists; `time` is `this.time`, `uTime` the bound
uniform, `resolution` the `uResolution` uniform and `rendererSize` the
renderer's drawing-surface size set via `setSize`. -/
structure InstanceState where
  hasMaterial : Bool
  hasRenderer : Bool
  hasScene : Bool
  hasCamera : Bool
  hasContainer : Bool
  time : ℚ
  uTime : ℚ
  resolution : ℚ × ℚ
  rendererSize : ℚ × ℚ
deriving DecidableEq

/-- A fully initialized instance at elapsed time zero. -/
def readyState : InstanceState where
  hasMaterial := true
  hasRenderer := true
  hasScene := true
  hasCamera := true
  hasContainer := true
  time := 0
  uTime := 0
  resolution := (800, 600)
  rendererSize := (800, 600)

/-- One `animate` tick (lines 285-293).  Returns the next state and whether
`renderer.render` was invoked.  The early return fires when any of
material, renderer, scene or camera is missing; otherwise `this.time +=
0.016 * this.options.rotationSpeed`, the uniform is updated and a frame is
rendered.  No check of the resolution or renderer size is performed. -/
def animate (rotationSpeed : ℚ) (s : InstanceState) : InstanceState × Bool :=
  if s.hasMaterial = false ∨ s.hasRenderer = false ∨ s.hasScene = false ∨ s.hasCamera = false then
    (s, false)
  else
    let t := s.time + 0.016 * rotationSpeed
    ({ s with time := t, uTime := t }, true)

/-- `n` consecutive animation ticks. -/
def animateIter (rotationSpeed : ℚ) : ℕ → InstanceState → InstanceState
  | 0, s => s
  | n + 1, s => animateIter rotationSpeed n (animate rotationSpeed s).1

/-- The debounced body of `handleResize` (lines 273-279), fired with the
container's current client size `(w, h)`: `if (!this.renderer ||
!this.material || !this.container) return;` then `renderer.setSize` and the
`uResolution` uniform are updated unconditionally — zero dimensions are
propagated like any others. -/
def handleResizeFire (w h : ℚ) (s : InstanceState) : InstanceState :=
  if s.hasRenderer = false ∨ s.hasMaterial = false ∨ s.hasContainer = false then s
  else { s with rendererSize := (w, h), resolution := (w, h) }

/-! ## Pixel ratio (line 81) -/

/-- `renderer.setPixelRatio(Math.min(window.devicePixelRatio, 2))`: the
device pixel ratio is capped at 2 but has no lower bound. -/
def effectivePixelRatioOf (dpr : ℚ) : ℚ := min dpr 2

/-- Effective pixel dimensions of the drawing surface: the logical size set
by `setSize` multiplied by the pixel ratio handed to `setPixelRatio`. -/
def effectivePixelDims (w h dpr : ℚ) : ℚ × ℚ :=
  (w * effectivePixelRatioOf dpr, h * effectivePixelRatioOf dpr)

/-! ## Pointer throttling (lines 248-264)

`handleMouseMove` drops the event if `mouseMoveTimeout` is pending;
otherwise it schedules a 16 ms timeout (whose callback merely clears the
handle) and writes the normalized position into `this.mouse`.  The host's
timer is modelled by storing the absolute expiry time of the pending
timeout: an event arriving at time `t` finds the handle cleared exactly
when `t` is at or past the expiry. -/

/-- Throttle state: expiry time of the pending 16 ms timeout (if any) plus
the shared mouse position. -/
structure ThrottleState where
  blockedUntil : Option ℚ
  mouse : ℚ × ℚ
deriving DecidableEq

/-- `handleMouseMove` delivered at wall-clock time `t` with normalized
coordinates `p`.  Returns the next state and whether the update was
accepted.  A dropped event leaves the state untouched — nothing is queued
for later application. -/
def handleMouseMove (t : ℚ) (p : ℚ × ℚ) (s : ThrottleState) : ThrottleState × Bool :=
  match s.blockedUntil with
  | some e =>
    if t < e then (s, false)
    else ({ blockedUntil := some (t + 16), mouse := p }, true)
  | none => ({ blockedUntil := some (t + 16), mouse := p }, true)

/-- Deliver a list of `(time, position)` pointer events in order, counting
how many were accepted. -/
def processEvents : List (ℚ × (ℚ × ℚ)) → ThrottleState → ThrottleState × ℕ
  | [], s => (s, 0)
  | ev :: rest, s =>
    let r := handleMouseMove ev.1 ev.2 s
    let out := processEvents rest r.1
    (out.1, out.2 + (if r.2 then 1 else 0))

/-! ## Teardown (destroy, lines 301-329)

Each release step is guarded on the presence of the corresponding field,
but `destroy` never clears `this.rafId`, the handler references,
`this.renderer`, `this.material` or `this.geometry`; only the DOM child is
actually removed (so the `container.contains` guard fails on a second
call).  We record the sequence of release actions each call performs. -/

/-- The externally visible release actions `destroy` can perform. -/
inductive TeardownAct where
  | cancelFrame
  | removeMouseListener
  | removeResizeListener
  | disposeRenderer
  | forceContextLoss
  | removeDomElement
  | disposeMaterial
  | disposeGeometry
deriving DecidableEq

/-- The instance fields `destroy` consults.  `rafId`, the two handler
flags, `hasRenderer`, `hasMaterial`, `hasGeometry` model the presence of
the corresponding JS fields (never cleared by `destroy`); `domAttached`
models `this.container.contains(this.renderer.domElement)`. -/
structure TeardownState where
  rafId : Option ℕ
  interactive : Bool
  hasMouseHandler : Bool
  hasResizeHandler : Bool
  hasRenderer : Bool
  domAttached : Bool
  hasMaterial : Bool
  hasGeometry : Bool
deriving DecidableEq

/-- `destroy()` (lines 301-329): returns the state after the call together
with the list of release actions performed, in order. -/
def destroyRun (s : TeardownState) : TeardownState × List TeardownAct :=
  let a1 := if s.rafId.isSome then [TeardownAct.cancelFrame] else []
  let a2 := if s.interactive && s.hasMouseHandler then [TeardownAct.removeMouseListener] else []
  let a3 := if s.hasResizeHandler then [TeardownAct.removeResizeListener] else []
  let rendererPart : TeardownState × List TeardownAct :=
    if s.hasRenderer then
      if s.domAttached then
        ({ s with domAttached := false },
          [TeardownAct.disposeRenderer, TeardownAct.forceContextLoss, TeardownAct.removeDomElement])
      else (s, [TeardownAct.disposeRenderer, TeardownAct.forceContextLoss])
    else (s, [])
  let a5 := if s.hasMaterial then [TeardownAct.disposeMaterial] else []
  let a6 := if s.hasGeometry then [TeardownAct.disposeGeometry] else []
  (rendererPart.1, a1 ++ a2 ++ a3 ++ rendererPart.2 ++ a5 ++ a6)

/-- A fully initialized interactive instance about to be destroyed. -/
def fullTeardownState : TeardownState where
  rafId := some 7
  interactive := true
  hasMouseHandler := true
  hasResizeHandler := true
  hasRenderer := true
  domAttached := true
  hasMaterial := true
  hasGeometry := true

/-- Actions performed by calling `destroy()` twice in a row. -/
def destroyTwiceActs (s : TeardownState) : List TeardownAct :=
  let first := destroyRun s
  first.2 ++ (destroyRun first.1).2

/-! ## Initialization and the degraded-mode fallback (lines 41-56, 295-299)

`init` probes for a WebGL context on a throwaway canvas; when none is
available it calls `showFallback` — which only sets the container
background to transparent and logs a warning — and returns without
constructing anything.  On the supported path it builds scene, renderer,
material, mesh and listeners and starts the loop; a renderer-construction
failure is caught (lines 84-87) and also routed to `showFallback`, after
which init proceeds with the remaining setup calls. -/

/-- What `init` has observably done by the time it returns. -/
structure InitOutcome where
  sceneCreated : Bool
  rendererCreated : Bool
  materialCreated : Bool
  meshCreated : Bool
  listenersAttached : Bool
  animationStarted : Bool
  containerBackground : String
  threw : Bool
deriving DecidableEq

/-- `init()` as a function of whether the WebGL capability probe succeeds
and whether the `THREE.WebGLRenderer` constructor succeeds;
`bg0` is the container's background style before the call. -/
def initRun (glAvailable rendererOk : Bool) (bg0 : String) : InitOutcome :=
  if glAvailable = false then
    { sceneCreated := false
      rendererCreated := false
      materialCreated := false
      meshCreated := false
      listenersAttached := false
      animationStarted := false
      containerBackground := "transparent"
      threw := false }
  else if rendererOk then
    { sceneCreated := true
      rendererCreated := true
      materialCreated := true
      meshCreated := true
      listenersAttached := true
      animationStarted := true
      containerBackground := bg0
      threw := false }
  else
    { sceneCreated := true
      rendererCreated := false
      materialCreated := true
      meshCreated := true
      listenersAttached := true
      animationStarted := false
      containerBackground := "transparent"
      threw := false }

/-! ## The fragment shader (FieldShader) over the reals

Shallow embedding of the GLSL fragment shader (source lines 107-215).
GLSL built-ins are interpreted as exact real functions: `cos`/`sin` are
`Real.cos`/`Real.sin`, `length` is the Euclidean norm via `Real.sqrt`,
`pow` is `Real.rpow`, `abs`/`min`/`max`/`mix`/`smoothstep` are their
textbook definitions. -/

/-- A 2-component vector of reals (GLSL `vec2`). -/
structure Vec2R where
  x : ℝ
  y : ℝ

/-- A 3-component vector of reals (GLSL `vec3`). -/
structure Vec3R where
  x : ℝ
  y : ℝ
  z : ℝ

/-- The shader constant `PI` (line 122). -/
noncomputable def shaderPI : ℝ := 3.141592653589793

/-- The shader constant `EPSILON` (line 123), the surface-hit threshold. -/
noncomputable def shaderEPS : ℝ := 0.001

/-- GLSL `v *= rot(angle)` with `rot` from lines 127-131: `mat2(c, -s, s,
c)` is column-major, so the row-vector product maps `(x, y)` to
`(c*x - s*y, s*x + c*y)` — a counter-clockwise rotation. -/
noncomputable def rotMul (v : Vec2R) (angle : ℝ) : Vec2R :=
  ⟨Real.cos angle * v.x - Real.sin angle * v.y,
   Real.sin angle * v.x + Real.cos angle * v.y⟩

/-- GLSL `length` of a `vec2`. -/
noncomputable def length2 (v : Vec2R) : ℝ := Real.sqrt (v.x ^ 2 + v.y ^ 2)

/-- GLSL `length` of a `vec3`. -/
noncomputable def length3 (v : Vec3R) : ℝ := Real.sqrt (v.x ^ 2 + v.y ^ 2 + v.z ^ 2)

/-- GLSL `normalize` of a `vec3`. -/
noncomputable def normalizeV (v : Vec3R) : Vec3R :=
  ⟨v.x / length3 v, v.y / length3 v, v.z / length3 v⟩

/-- One iteration of the `applyWaveDeformation` loop (lines 144-151),
carrying `(deformed, frequency, amplitude)`; `i` is the loop counter.  The
swizzle `cos(deformed.zxy * frequency - phase)` makes the oscillation
components `(cos (z*f - p), cos (x*f - p), cos (y*f - p))`. -/
noncomputable def waveStep (timeOffset : ℝ) (i : ℕ) : Vec3R × ℝ × ℝ → Vec3R × ℝ × ℝ :=
  fun st =>
    let d := st.1
    let frequency := st.2.1
    let amplitude := st.2.2
    let rxz := rotMul ⟨d.x, d.z⟩ 0.4
    let d1 : Vec3R := ⟨rxz.x, d.y, rxz.y⟩
    let phase := timeOffset * (i : ℝ) * 2
    let osc : Vec3R :=
      ⟨Real.cos (d1.z * frequency - phase),
       Real.cos (d1.x * frequency - phase),
       Real.cos (d1.y * frequency - phase)⟩
    (⟨d1.x + osc.x * amplitude, d1.y + osc.y * amplitude, d1.z + osc.z * amplitude⟩,
      frequency * 2, amplitude * 0.5)

/-- `applyWaveDeformation` (lines 139-153): the 4-iteration domain warp,
starting from `frequency = 1`, `amplitude = 1`. -/
noncomputable def applyWaveDeformation (pos : Vec3R) (timeOffset : ℝ) : Vec3R :=
  (waveStep timeOffset 3 (waveStep timeOffset 2
    (waveStep timeOffset 1 (waveStep timeOffset 0 (pos, 1, 1))))).1

/-- `blendMin` (lines 155-159): quadratic smooth minimum with blend
parameter `k` (internally scaled by 4). -/
noncomputable def blendMin (a b k : ℝ) : ℝ :=
  let scaledK := k * 4
  let h := max (scaledK - |a - b|) 0
  min a b - h * h * 0.25 / scaledK

/-- `blendMax` (lines 161-163): smooth maximum via `-blendMin(-a,-b,k)`. -/
noncomputable def blendMax (a b k : ℝ) : ℝ := -blendMin (-a) (-b) k

/-- Sample position for one march iteration (lines 186-187): `pos = origin
+ direction * depth` with `origin = (0,0,-10)`, then `pos.xz *= rotX`. -/
noncomputable def marchPos (angle : ℝ) (dir : Vec3R) (depth : ℝ) : Vec3R :=
  let p : Vec3R := ⟨0 + dir.x * depth, 0 + dir.y * depth, -10 + dir.z * depth⟩
  let r := rotMul ⟨p.x, p.z⟩ angle
  ⟨r.x, p.y, r.y⟩

/-- The per-iteration field value (lines 189-198): scale `y` by the pillar
height, add the time offset, apply the domain warp, take the cosine
cylinder field `length(cos(deformed.xz)) - 0.2`, blend it against the
radial bound `length(pos.xz) - pillarWidth` with `blendMax`, then
`abs(...) * 0.15 + 0.01`.  This value is both the marching step size and
the inverse brightness contribution. -/
noncomputable def marchSample (pw ph t angle : ℝ) (dir : Vec3R) (depth : ℝ) : ℝ :=
  let pos := marchPos angle dir depth
  let deformed := applyWaveDeformation ⟨pos.x, pos.y * ph + t, pos.z⟩ t
  let cosinePair : Vec2R := ⟨Real.cos deformed.x, Real.cos deformed.z⟩
  let fieldDistance := length2 cosinePair - 0.2
  let radialBound := length2 ⟨pos.x, pos.z⟩ - pw
  let blended := blendMax radialBound fieldDistance 1
  |blended| * 0.15 + 0.01

/-- GLSL `smoothstep`: clamp then cubic Hermite. -/
noncomputable def smoothstepR (e0 e1 x : ℝ) : ℝ :=
  let tt := min (max ((x - e0) / (e1 - e0)) 0) 1
  tt * tt * (3 - 2 * tt)

/-- GLSL `mix` on `vec3`, componentwise linear interpolation. -/
noncomputable def mixV (a b : Vec3R) (t : ℝ) : Vec3R :=
  ⟨a.x * (1 - t) + b.x * t, a.y * (1 - t) + b.y * t, a.z * (1 - t) + b.z * t⟩

/-- `mix(uBottomColor, uTopColor, smoothstep(15.0, -15.0, pos.y))`
(line 200): the vertical color gradient. -/
noncomputable def gradientAt (topColor bottomColor : Vec3R) (y : ℝ) : Vec3R :=
  mixV bottomColor topColor (smoothstepR 15 (-15) y)

/-- The raymarch loop (lines 185-205) with explicit fuel (the source cap is
100 iterations).  Returns the number of iterations executed, whether the
loop exited through its `break` statement, and the accumulated color.  As
in the source, the color contribution `gradient * pow(1.0/fieldDistance,
1.0)` of an iteration is accumulated before the break test, and the break
test compares the pre-advance depth against `maxDepth = 50.0`. -/
noncomputable def marchLoop (pw ph t angle : ℝ) (dir topColor bottomColor : Vec3R) :
    ℕ → ℝ → Vec3R → ℕ × Bool × Vec3R
  | 0, _, color => (0, false, color)
  | fuel + 1, depth, color =>
    let pos := marchPos angle dir depth
    let fd := marchSample pw ph t angle dir depth
    let g := gradientAt topColor bottomColor pos.y
    let w := Real.rpow (1 / fd) 1
    let color1 : Vec3R := ⟨color.x + g.x * w, color.y + g.y * w, color.z + g.z * w⟩
    if fd < shaderEPS ∨ depth > 50 then (1, true, color1)
    else
      let r := marchLoop pw ph t angle dir topColor bottomColor fuel (depth + fd) color1
      (r.1 + 1, r.2.1, r.2.2)

/-- The rotation angle of the ray's horizontal plane (lines 178-181):
`rotX` is initialized to `rot(uTime * 0.3)` and overwritten with
`rot(uMouse.x * PI * 2.0)` exactly when `uInteractive && length(uMouse) >
0.0`; this is the angle of the matrix that ends up being applied. -/
noncomputable def rayRotationAngle (interactive : Bool) (mouse : Vec2R) (time : ℝ) : ℝ :=
  if interactive = true ∧ 0 < length2 mouse then mouse.x * shaderPI * 2 else time * 0.3

/-- Normalized, aspect-corrected screen coordinate computed by `main`
(lines 166-167): `uv = (fragCoord * 2.0 - uResolution) / uResolution.y`. -/
noncomputable def uvOfFrag (fragCoord resolution : Vec2R) : Vec2R :=
  ⟨(fragCoord.x * 2 - resolution.x) / resolution.y,
   (fragCoord.y * 2 - resolution.y) / resolution.y⟩

/-- The march performed by `main` for a given aspect-corrected coordinate
`uv` (lines 169-205): rotate `uv` by the pillar rotation converted to
radians, build the camera ray `origin = (0,0,-10)`, `direction =
normalize(vec3(uv, 1.0))`, select the horizontal-plane rotation angle,
and run the march from starting depth 0.1 with a 100-iteration cap. -/
noncomputable def shaderMarch (uv : Vec2R) (t : ℝ) (interactive : Bool) (mouse : Vec2R)
    (pw ph rotDeg : ℝ) (topColor bottomColor : Vec3R) : ℕ × Bool × Vec3R :=
  let rotAngle := rotDeg * shaderPI / 180
  let uv1 := rotMul uv rotAngle
  let dir := normalizeV ⟨uv1.x, uv1.y, 1⟩
  let angle := rayRotationAngle interactive mouse t
  marchLoop pw ph t angle dir topColor bottomColor 100 0.1 ⟨0, 0, 0⟩

/-! ## Fixed-point interval arithmetic

A verified evaluation kernel used to decide concrete numeric questions
about the raymarch.  Interval endpoints are integers at the global scale
`2 ^ 112`; every operation rounds outward.  Enclosures for `Real.cos` and
`Real.sin` combine degree-8/9 Taylor polynomials (valid on `[-1, 1]`) with
an 18-step double-angle ladder and the quadratic remainder bounds
`Real.cos_bound` / `Real.sin_bound` for interval-midpoint offsets;
`Real.sqrt` is enclosed by a binary search for the integer square root. -/

/-- Fixed-point scale exponent. -/
def scaleExp : ℕ := 112

/-- The fixed-point scale as a natural number. -/
def SN : ℕ := 2 ^ scaleExp

/-- The fixed-point scale as an integer. -/
def SZ : ℤ := (SN : ℤ)

/-- Ceiling division (for positive divisors), via Euclidean division. -/
def cdivZ (a b : ℤ) : ℤ := -(Int.ediv (-a) b)

/-- Minimum of two integers via the sign of their difference (constructor
matching is much cheaper in kernel reduction than an order-instance
projection). -/
def minZ (a b : ℤ) : ℤ :=
  match b - a with
  | Int.ofNat _ => a
  | Int.negSucc _ => b

/-- Maximum of two integers via the sign of their difference. -/
def maxZ (a b : ℤ) : ℤ :=
  match b - a with
  | Int.ofNat _ => b
  | Int.negSucc _ => a

/-- Absolute value via `maxZ`. -/
def absZ (a : ℤ) : ℤ := maxZ a (-a)

/-- Boolean `a ≤ b` via the sign of the difference. -/
def leZb (a b : ℤ) : Bool :=
  match b - a with
  | Int.ofNat _ => true
  | Int.negSucc _ => false

/-- An interval with integer endpoints at scale `SZ`. -/
structure Ivl where
  lo : ℤ
  hi : ℤ
deriving DecidableEq

/-- `I` encloses the real `x`: `lo ≤ x * SZ ≤ hi`. -/
def Ivl.memb (I : Ivl) (x : ℝ) : Prop :=
  (I.lo : ℝ) ≤ x * (SZ : ℝ) ∧ x * (SZ : ℝ) ≤ (I.hi : ℝ)

/-- Exact integer point. -/
def pointI (n : ℤ) : Ivl := ⟨n * SZ, n * SZ⟩

/-- Outward-rounded enclosure of the rational `n / d` (for `d > 0`). -/
def ofRatI (n d : ℤ) : Ivl := ⟨Int.ediv (n * SZ) d, cdivZ (n * SZ) d⟩

/-- The interval `[-1, 1]`, a sound fallback for any sine or cosine. -/
def fullI : Ivl := ⟨-SZ, SZ⟩

/-- Interval addition (exact at a common scale). -/
def Ivl.add (a b : Ivl) : Ivl := ⟨a.lo + b.lo, a.hi + b.hi⟩

/-- Interval negation. -/
def Ivl.neg (a : Ivl) : Ivl := ⟨-a.hi, -a.lo⟩

/-- Interval subtraction. -/
def Ivl.sub (a b : Ivl) : Ivl := a.add b.neg

/-- Exact doubling. -/
def Ivl.double (a : Ivl) : Ivl := ⟨2 * a.lo, 2 * a.hi⟩

/-- Interval multiplication: corner products, rounded outward. -/
def Ivl.mul (a b : Ivl) : Ivl :=
  if leZb 0 a.lo then
    if leZb 0 b.lo then ⟨Int.ediv (a.lo * b.lo) SZ, cdivZ (a.hi * b.hi) SZ⟩
    else if leZb b.hi 0 then ⟨Int.ediv (a.hi * b.lo) SZ, cdivZ (a.lo * b.hi) SZ⟩
    else ⟨Int.ediv (a.hi * b.lo) SZ, cdivZ (a.hi * b.hi) SZ⟩
  else if leZb a.hi 0 then
    if leZb 0 b.lo then ⟨Int.ediv (a.lo * b.hi) SZ, cdivZ (a.hi * b.lo) SZ⟩
    else if leZb b.hi 0 then ⟨Int.ediv (a.hi * b.hi) SZ, cdivZ (a.lo * b.lo) SZ⟩
    else ⟨Int.ediv (a.lo * b.hi) SZ, cdivZ (a.lo * b.lo) SZ⟩
  else
    if leZb 0 b.lo then ⟨Int.ediv (a.lo * b.hi) SZ, cdivZ (a.hi * b.hi) SZ⟩
    else if leZb b.hi 0 then ⟨Int.ediv (a.hi * b.lo) SZ, cdivZ (a.lo * b.lo) SZ⟩
    else
      ⟨Int.ediv (minZ (a.lo * b.hi) (a.hi * b.lo)) SZ,
       cdivZ (maxZ (a.lo * b.lo) (a.hi * b.hi)) SZ⟩

/-- Componentwise minimum (encloses the pointwise `min`). -/
def Ivl.minI (a b : Ivl) : Ivl := ⟨minZ a.lo b.lo, minZ a.hi b.hi⟩

/-- Componentwise maximum (encloses the pointwise `max`). -/
def Ivl.maxI (a b : Ivl) : Ivl := ⟨maxZ a.lo b.lo, maxZ a.hi b.hi⟩

/-- Enclosure of the absolute value. -/
def Ivl.absI (a : Ivl) : Ivl := ⟨maxZ (maxZ a.lo (-a.hi)) 0, maxZ (-a.lo) a.hi⟩

/-- Widen both endpoints by `r` (used to absorb a truncation error). -/
def Ivl.widen (a : Ivl) (r : ℤ) : Ivl := ⟨a.lo - r, a.hi + r⟩

/-- Evaluation sequencing: both branches are `x`, so this is the identity
function on `x`; but to pick a branch the kernel must first force `n` to a
numeral (the subtraction `n - n` reduces only once both copies of its
argument do).  Threaded through the evaluator below it keeps kernel
reduction depth bounded (intermediate results are demanded in dependency
order and cached) instead of recursing through one enormous unevaluated
expression tree. -/
def seqZ {α : Sort _} (n : ℤ) (x : α) : α :=
  match n - n with
  | Int.ofNat _ => x
  | Int.negSucc _ => x

/-- Evaluation sequencing for both endpoints of an interval. -/
def seqI {α : Sort _} (g : Ivl) (x : α) : α := seqZ g.lo (seqZ g.hi x)

/-- Binary search maintaining the invariant `lo * lo ≤ n < hi * hi`. -/
def sqrtLoop : ℕ → ℕ → ℕ → ℕ → ℕ × ℕ
  | 0, lo, hi, _ => (lo, hi)
  | f + 1, lo, hi, n =>
    if hi ≤ lo + 1 then (lo, hi)
    else
      let m := (lo + hi) / 2
      if m * m ≤ n then sqrtLoop f m hi n else sqrtLoop f lo m n

/-- Integer-square-root bounds `(l, h)` with `l * l ≤ n < h * h`. -/
def sqrtBounds (n : ℕ) : ℕ × ℕ := sqrtLoop 400 0 (n + 1) n

/-- Interval square root (negative parts are clamped to 0, matching
`Real.sqrt` of a nonpositive argument). -/
def sqrtI (a : Ivl) : Ivl :=
  ⟨((sqrtBounds (a.lo.toNat * SN)).1 : ℤ), ((sqrtBounds (a.hi.toNat * SN)).2 : ℤ)⟩

/-- Scaled upper bound for the degree-10 Taylor remainder
`|x|^10 * (11 / 36288000)` of both sine and cosine (see `cos_taylor_deg8`
and `sin_taylor_deg9` below), where `B` bounds `|x| * SZ`. -/
def rem10 (B : ℤ) : ℤ :=
  cdivZ (11 * B ^ 10) (36288000 * SZ ^ 9) + 1

/-- Degree-8 Taylor enclosure of cosine, sound for arguments in `[-1, 1]`
(outside the guard it falls back to `[-1, 1]`): the Horner form of
`1 - x^2/2 + x^4/24 - x^6/720 + x^8/40320`, widened by `rem10`. -/
def cosSmallI (X : Ivl) : Ivl :=
  if X.lo < -SZ ∨ SZ < X.hi then fullI
  else
    let B : ℤ := maxZ (absZ X.lo) (absZ X.hi)
    let y := X.mul X
    let a3 := (y.mul (ofRatI 1 40320)).add (ofRatI (-1) 720)
    let a2 := (y.mul a3).add (ofRatI 1 24)
    let a1 := (y.mul a2).add (ofRatI (-1) 2)
    let a0 := (y.mul a1).add (pointI 1)
    seqI a0 (a0.widen (rem10 B))

/-- Degree-9 Taylor enclosure of sine, sound for arguments in `[-1, 1]`:
the Horner form of `x - x^3/6 + x^5/120 - x^7/5040 + x^9/362880`, widened
by `rem10`. -/
def sinSmallI (X : Ivl) : Ivl :=
  if X.lo < -SZ ∨ SZ < X.hi then fullI
  else
    let B : ℤ := maxZ (absZ X.lo) (absZ X.hi)
    let y := X.mul X
    let a3 := (y.mul (ofRatI 1 362880)).add (ofRatI (-1) 5040)
    let a2 := (y.mul a3).add (ofRatI 1 120)
    let a1 := (y.mul a2).add (ofRatI (-1) 6)
    let a0 := X.mul ((y.mul a1).add (pointI 1))
    seqI a0 (a0.widen (rem10 B))

/-- Cheap enclosure of the cosine of a small argument (used for the
distance from an interval to its midpoint): for `|x| ≤ 1`,
`1 - x^2/2 - |x|^4 * (5/96) ≤ cos x ≤ 1` by `Real.cos_bound` and
`Real.cos_le_one`. -/
def cosTinyI (X : Ivl) : Ivl :=
  if X.lo < -SZ ∨ SZ < X.hi then fullI
  else
    let B : ℤ := maxZ (absZ X.lo) (absZ X.hi)
    let d := cdivZ (B ^ 2) (2 * SZ) + cdivZ (5 * B ^ 4) (96 * SZ ^ 3) + 1
    ⟨SZ - d, SZ⟩

/-- Cheap enclosure of the sine of a small argument: for `|x| ≤ 1`,
`sin x` lies within `|x|^3/6 + |x|^4 * (5/96)` of `x` by
`Real.sin_bound`. -/
def sinTinyI (X : Ivl) : Ivl :=
  if X.lo < -SZ ∨ SZ < X.hi then fullI
  else
    let B : ℤ := maxZ (absZ X.lo) (absZ X.hi)
    let d := cdivZ (B ^ 3) (6 * SZ ^ 2) + cdivZ (5 * B ^ 4) (96 * SZ ^ 3) + 1
    X.widen d

/-- Double-angle ladder: from enclosures of `(sin θ, cos θ)` to enclosures
of `(sin (2^k θ), cos (2^k θ))` via `sin 2θ = 2 sin θ cos θ` and
`cos 2θ = 2 cos² θ - 1`. -/
def sinCosLadder : ℕ → Ivl × Ivl → Ivl × Ivl
  | 0, sc => sc
  | k + 1, sc =>
    let s2 := (sc.1.mul sc.2).double
    let c2 := (sc.2.mul sc.2).double.sub (pointI 1)
    seqI c2 (sinCosLadder k (s2, c2))

/-- Number of double-angle steps used for point evaluations. -/
def ladderK : ℕ := 18

/-- Enclosures of `(sin (m / SZ), cos (m / SZ))` for an exact dyadic point:
halve the angle `ladderK` times, evaluate the small-argument Taylor
enclosures, and double back up. -/
def pointSinCos (m : ℤ) : Ivl × Ivl :=
  let x0 : Ivl := ⟨Int.ediv m (2 ^ ladderK : ℕ), cdivZ m (2 ^ ladderK : ℕ)⟩
  let s0 := sinSmallI x0
  let c0 := cosSmallI x0
  seqI s0 (seqI c0 (sinCosLadder ladderK (s0, c0)))

/-- Enclosure of `Real.cos` on an interval: split `x = m/SZ + r` about the
midpoint and use `cos (m + r) = cos m cos r - sin m sin r`. -/
def cosIvl (X : Ivl) : Ivl :=
  seqI X
    (let m := Int.ediv (X.lo + X.hi) 2
     seqZ m
       (let sc := pointSinCos m
        let R := X.sub ⟨m, m⟩
        let cr := cosTinyI R
        let sr := sinTinyI R
        seqI sc.1 (seqI sc.2 (seqI cr (seqI sr ((sc.2.mul cr).sub (sc.1.mul sr)))))))

/-- Enclosure of `Real.sin` on an interval, via
`sin (m + r) = sin m cos r + cos m sin r`. -/
def sinIvl (X : Ivl) : Ivl :=
  seqI X
    (let m := Int.ediv (X.lo + X.hi) 2
     seqZ m
       (let sc := pointSinCos m
        let R := X.sub ⟨m, m⟩
        let cr := cosTinyI R
        let sr := sinTinyI R
        seqI sc.1 (seqI sc.2 (seqI cr (seqI sr ((sc.1.mul cr).add (sc.2.mul sr)))))))

/-! ## Interval evaluation of the march field -/

/-- A 3-vector of intervals. -/
structure IvlV3 where
  x : Ivl
  y : Ivl
  z : Ivl

/-- Interval enclosures for everything `marchSample` consumes: the shader
constants `cos 0.4` / `sin 0.4` of the warp rotation, the uniforms, the
ray direction, and the cosine/sine of the horizontal-plane angle. -/
structure MarchIvls where
  c04 : Ivl
  s04 : Ivl
  ph : Ivl
  pw : Ivl
  dirX : Ivl
  dirY : Ivl
  dirZ : Ivl
  t : Ivl
  cosA : Ivl
  sinA : Ivl

/-- Interval version of `waveStep`. -/
def waveStepI (u : MarchIvls) (i : ℕ) (st : IvlV3 × Ivl × Ivl) : IvlV3 × Ivl × Ivl :=
  let d := st.1
  let freq := st.2.1
  let amp := st.2.2
  let rx := (u.c04.mul d.x).sub (u.s04.mul d.z)
  let rz := (u.s04.mul d.x).add (u.c04.mul d.z)
  seqI rx (seqI rz
    (let phase := (u.t.mul (pointI (i : ℤ))).mul (pointI 2)
     seqI phase
       (let ox := cosIvl ((rz.mul freq).sub phase)
        let oy := cosIvl ((rx.mul freq).sub phase)
        let oz := cosIvl ((d.y.mul freq).sub phase)
        seqI ox (seqI oy (seqI oz
          (let nx := rx.add (ox.mul amp)
           let ny := d.y.add (oy.mul amp)
           let nz := rz.add (oz.mul amp)
           let nf := freq.mul (pointI 2)
           let na := amp.mul (ofRatI 1 2)
           seqI nx (seqI ny (seqI nz (seqI nf (seqI na (⟨nx, ny, nz⟩, nf, na)))))))))))

/-- Interval version of `marchPos`. -/
def marchPosI (u : MarchIvls) (dI : Ivl) : IvlV3 :=
  let px := (pointI 0).add (u.dirX.mul dI)
  let py := (pointI 0).add (u.dirY.mul dI)
  let pz := (pointI (-10)).add (u.dirZ.mul dI)
  seqI px (seqI py (seqI pz
    (let rx := (u.cosA.mul px).sub (u.sinA.mul pz)
     let rz := (u.sinA.mul px).add (u.cosA.mul pz)
     seqI rx (seqI rz ⟨rx, py, rz⟩))))

/-- Interval version of `blendMin` at blend parameter `k = 1`. -/
def blendMinI (a b : Ivl) : Ivl :=
  let h := ((pointI 4).sub (Ivl.absI (a.sub b))).maxI (pointI 0)
  seqI h ((a.minI b).sub (((h.mul h).mul (ofRatI 1 4)).mul (ofRatI 1 4)))

/-- Interval version of `blendMax` at blend parameter `k = 1`. -/
def blendMaxI (a b : Ivl) : Ivl := (blendMinI a.neg b.neg).neg

/-- Interval version of `marchSample`. -/
def marchSampleI (u : MarchIvls) (dI : Ivl) : Ivl :=
  let pos := marchPosI u dI
  seqI pos.x (seqI pos.y (seqI pos.z
    (let w0 : IvlV3 := ⟨pos.x, (pos.y.mul u.ph).add u.t, pos.z⟩
     seqI w0.y
       (let w4 := waveStepI u 3 (waveStepI u 2 (waveStepI u 1 (waveStepI u 0 (w0, pointI 1, pointI 1))))
        seqI w4.1.x (seqI w4.1.z
          (let cx := cosIvl w4.1.x
           let cz := cosIvl w4.1.z
           seqI cx (seqI cz
             (let sq1 := sqrtI ((cx.mul cx).add (cz.mul cz))
              seqI sq1
                (let fieldD := sq1.sub (ofRatI 1 5)
                 let sq2 := sqrtI ((pos.x.mul pos.x).add (pos.z.mul pos.z))
                 seqI sq2
                   (let radial := sq2.sub u.pw
                    let blended := blendMaxI radial fieldD
                    seqI blended
                      (((Ivl.absI blended).mul (ofRatI 3 20)).add (ofRatI 1 100))))))))))))

/-- Upper endpoint of an enclosure of the break threshold `EPSILON`. -/
def epsUB : ℤ := cdivZ SZ 1000

/-- Depth threshold `13.2` (rounded up at scale `SZ`) from which the
analytic tail argument `marchLoop_tail` takes over: past it the radial
bound alone forces the step size, and the depth grows geometrically out
of the 50-unit march range. -/
def tailTarget : ℤ := cdivZ (66 * SZ) 5

/-- Certify, by interval evaluation, that the march starting from every
depth in `dI` either exits through its `break` statement or reaches a
depth of at least `tailTarget / SZ` within `fuel` iterations.  At each
level the depth is either certified past the target, or certified at most
`maxDepth = 50` with a field value certified at least `EPSILON` (so the
loop continues with the advanced depth). -/
def checkLoop (u : MarchIvls) : ℕ → Ivl → Bool
  | 0, dI => leZb tailTarget dI.lo
  | fuel + 1, dI =>
    if leZb tailTarget dI.lo then true
    else if dI.hi ≤ 50 * SZ then
      let fI := marchSampleI u dI
      if epsUB ≤ fI.lo then seqI fI (checkLoop u fuel (dI.add fI)) else false
    else false

/-- The interval uniforms for the C5 scenario: `pillarWidth = 3`,
`pillarHeight = 0.4`, `time = 0`, non-interactive (so the horizontal
rotation angle is `0 * 0.3`, with cosine 1 and sine 0), ray direction
`(0, 0, 1)`. -/
def c5u : MarchIvls :=
  let p04 := ofRatI 2 5
  { c04 := cosIvl p04
    s04 := sinIvl p04
    ph := ofRatI 2 5
    pw := pointI 3
    dirX := pointI 0
    dirY := pointI 0
    dirZ := pointI 1
    t := pointI 0
    cosA := pointI 1
    sinA := pointI 0 }

/-- The concrete certificate computation for C5: 53 interval levels
starting from the enclosure of the initial depth `0.1` (the evaluation
certifies that the depth reaches `13.2` by iteration 52; the analytic
tail lemma bounds the rest of the march). -/
def c5check : Bool := checkLoop c5u 53 (ofRatI 1 10)

/-- The interval uniforms enclose the real march parameters: each stored
interval contains the corresponding real quantity consumed by
`marchSample` — the warp-rotation constants `cos 0.4` / `sin 0.4`, the
pillar dimensions, the ray direction, the time, and the cosine/sine of the
horizontal-plane rotation angle. -/
def MarchIvls.matchesR (u : MarchIvls) (pw ph t angle : ℝ) (dir : Vec3R) : Prop :=
  u.c04.memb (Real.cos 0.4) ∧ u.s04.memb (Real.sin 0.4) ∧
  u.ph.memb ph ∧ u.pw.memb pw ∧
  u.dirX.memb dir.x ∧ u.dirY.memb dir.y ∧ u.dirZ.memb dir.z ∧
  u.t.memb t ∧ u.cosA.memb (Real.cos angle) ∧ u.sinA.memb (Real.sin angle)

/-- Componentwise interval membership for a `(deformed, frequency,
amplitude)` triple of the wave-deformation loop. -/
def trimemb (st : IvlV3 × Ivl × Ivl) (sv : Vec3R × ℝ × ℝ) : Prop :=
  st.1.x.memb sv.1.x ∧ st.1.y.memb sv.1.y ∧ st.1.z.memb sv.1.z ∧
  st.2.1.memb sv.2.1 ∧ st.2.2.memb sv.2.2

/-! ## Soundness of the interval kernel -/

theorem SZ_pos : (0 : ℤ) < SZ := by
  unfold SZ SN
  positivity

theorem SZR_pos : (0 : ℝ) < (SZ : ℝ) := by exact_mod_cast SZ_pos

theorem minZ_eq (a b : ℤ) : minZ a b = min a b := by
  unfold minZ
  rcases h : b - a with k | k
  · rw [Int.ofNat_eq_natCast] at h
    have hab : a ≤ b := by omega
    simp [min_eq_left hab]
  · rw [Int.negSucc_eq] at h
    have hba : b < a := by omega
    simp [min_eq_right hba.le]

theorem maxZ_eq (a b : ℤ) : maxZ a b = max a b := by
  unfold maxZ
  rcases h : b - a with k | k
  · rw [Int.ofNat_eq_natCast] at h
    have hab : a ≤ b := by omega
    simp [max_eq_right hab]
  · rw [Int.negSucc_eq] at h
    have hba : b < a := by omega
    simp [max_eq_left hba.le]

theorem absZ_eq (a : ℤ) : absZ a = |a| := by
  rw [absZ, maxZ_eq, abs_eq_max_neg, max_comm]

theorem leZb_iff {a b : ℤ} : leZb a b = true ↔ a ≤ b := by
  unfold leZb
  rcases h : b - a with k | k
  · rw [Int.ofNat_eq_natCast] at h
    simp only [true_iff]
    omega
  · rw [Int.negSucc_eq] at h
    simp only [Bool.false_eq_true, false_iff, not_le]
    omega

theorem leZb_false_iff {a b : ℤ} : leZb a b = false ↔ b < a := by
  have h : (leZb a b = false) ↔ ¬(leZb a b = true) := by
    cases leZb a b <;> simp
  rw [h, leZb_iff, not_le]

theorem seqZ_eq {α : Sort _} (n : ℤ) (x : α) : seqZ n x = x := by
  unfold seqZ
  rcases n - n with k | k <;> rfl

theorem seqI_eq {α : Sort _} (g : Ivl) (x : α) : seqI g x = x := by
  rw [seqI, seqZ_eq, seqZ_eq]

theorem ediv_le_div_real {a b : ℤ} (hb : 0 < b) : ((Int.ediv a b : ℤ) : ℝ) ≤ (a : ℝ) / (b : ℝ) := by
  have hbR : (0 : ℝ) < (b : ℝ) := by exact_mod_cast hb
  rw [le_div_iff₀ hbR]
  have h1 : b * Int.ediv a b + Int.emod a b = a := Int.ediv_add_emod a b
  have h2 : 0 ≤ Int.emod a b := Int.emod_nonneg a (by omega)
  have h3 : b * Int.ediv a b ≤ a := by linarith
  have h4 : ((b * Int.ediv a b : ℤ) : ℝ) ≤ (a : ℝ) := by exact_mod_cast h3
  push_cast at h4
  linarith

theorem div_le_cdiv_real {a b : ℤ} (hb : 0 < b) : (a : ℝ) / (b : ℝ) ≤ ((cdivZ a b : ℤ) : ℝ) := by
  have h := @ediv_le_div_real (-a) _ hb
  rw [cdivZ]
  push_cast
  push_cast at h
  rw [neg_div] at h
  linarith

/-- Interval membership is stated on the scaled value; this unfolds it. -/
theorem memb_def {I : Ivl} {x : ℝ} :
    I.memb x ↔ (I.lo : ℝ) ≤ x * (SZ : ℝ) ∧ x * (SZ : ℝ) ≤ (I.hi : ℝ) := Iff.rfl

theorem pointI_mem (n : ℤ) : (pointI n).memb (n : ℝ) := by
  constructor
  · show ((n * SZ : ℤ) : ℝ) ≤ (n : ℝ) * SZ
    push_cast
    linarith [le_refl ((n : ℝ) * (SZ : ℝ))]
  · show (n : ℝ) * SZ ≤ ((n * SZ : ℤ) : ℝ)
    push_cast
    linarith [le_refl ((n : ℝ) * (SZ : ℝ))]

theorem ofRatI_mem {n d : ℤ} (hd : 0 < d) : (ofRatI n d).memb ((n : ℝ) / (d : ℝ)) := by
  have hdR : (0 : ℝ) < (d : ℝ) := by exact_mod_cast hd
  constructor
  · have := @ediv_le_div_real (n * SZ) _ hd
    rw [ofRatI]
    calc ((Int.ediv (n * SZ) d : ℤ) : ℝ) ≤ ((n * SZ : ℤ) : ℝ) / d := this
    _ = (n : ℝ) / d * SZ := by push_cast; ring
  · have := @div_le_cdiv_real (n * SZ) _ hd
    rw [ofRatI]
    calc (n : ℝ) / d * SZ = ((n * SZ : ℤ) : ℝ) / d := by push_cast; ring
    _ ≤ _ := this

theorem fullI_mem {x : ℝ} (h : |x| ≤ 1) : fullI.memb x := by
  rw [abs_le] at h
  constructor
  · rw [fullI]; push_cast
    nlinarith [SZR_pos]
  · rw [fullI]; push_cast
    nlinarith [SZR_pos]

theorem Ivl.add_mem {a b : Ivl} {x y : ℝ} (ha : a.memb x) (hb : b.memb y) :
    (a.add b).memb (x + y) := by
  obtain ⟨h1, h2⟩ := ha
  obtain ⟨h3, h4⟩ := hb
  constructor
  · rw [Ivl.add]; push_cast; nlinarith
  · rw [Ivl.add]; push_cast; nlinarith

theorem Ivl.neg_mem {a : Ivl} {x : ℝ} (ha : a.memb x) : a.neg.memb (-x) := by
  obtain ⟨h1, h2⟩ := ha
  constructor
  · rw [Ivl.neg]; push_cast; nlinarith
  · rw [Ivl.neg]; push_cast; nlinarith

theorem Ivl.sub_mem {a b : Ivl} {x y : ℝ} (ha : a.memb x) (hb : b.memb y) :
    (a.sub b).memb (x - y) := by
  have := Ivl.add_mem ha (Ivl.neg_mem hb)
  rw [Ivl.sub]
  simpa [sub_eq_add_neg] using this

theorem Ivl.double_mem {a : Ivl} {x : ℝ} (ha : a.memb x) : a.double.memb (2 * x) := by
  obtain ⟨h1, h2⟩ := ha
  constructor
  · rw [Ivl.double]; push_cast; nlinarith
  · rw [Ivl.double]; push_cast; nlinarith

theorem Ivl.widen_mem {a : Ivl} {y z : ℝ} {r : ℤ} (ha : a.memb y)
    (h : |z - y| * (SZ : ℝ) ≤ (r : ℝ)) : (a.widen r).memb z := by
  obtain ⟨h1, h2⟩ := ha
  have habs : |(z - y) * (SZ : ℝ)| ≤ (r : ℝ) := by
    rw [abs_mul, abs_of_pos SZR_pos]; exact h
  rw [abs_le] at habs
  obtain ⟨h3, h4⟩ := habs
  have e : z * (SZ : ℝ) = y * SZ + (z - y) * SZ := by ring
  constructor
  · show ((a.lo - r : ℤ) : ℝ) ≤ z * SZ
    push_cast
    linarith
  · show z * (SZ : ℝ) ≤ ((a.hi + r : ℤ) : ℝ)
    push_cast
    linarith

theorem Ivl.minI_mem {a b : Ivl} {x y : ℝ} (ha : a.memb x) (hb : b.memb y) :
    (a.minI b).memb (min x y) := by
  obtain ⟨h1, h2⟩ := ha
  obtain ⟨h3, h4⟩ := hb
  have e : min x y * (SZ : ℝ) = min (x * SZ) (y * SZ) := by
    rcases le_total x y with h | h
    · rw [min_eq_left h, min_eq_left (by nlinarith [SZR_pos])]
    · rw [min_eq_right h, min_eq_right (by nlinarith [SZR_pos])]
  constructor
  · rw [Ivl.minI, minZ_eq, minZ_eq]; push_cast [e]
    exact min_le_min h1 h3
  · rw [Ivl.minI, minZ_eq, minZ_eq]; push_cast [e]
    exact min_le_min h2 h4

theorem Ivl.maxI_mem {a b : Ivl} {x y : ℝ} (ha : a.memb x) (hb : b.memb y) :
    (a.maxI b).memb (max x y) := by
  obtain ⟨h1, h2⟩ := ha
  obtain ⟨h3, h4⟩ := hb
  have e : max x y * (SZ : ℝ) = max (x * SZ) (y * SZ) := by
    rcases le_total x y with h | h
    · rw [max_eq_right h, max_eq_right (by nlinarith [SZR_pos])]
    · rw [max_eq_left h, max_eq_left (by nlinarith [SZR_pos])]
  constructor
  · rw [Ivl.maxI, maxZ_eq, maxZ_eq]; push_cast [e]
    exact max_le_max h1 h3
  · rw [Ivl.maxI, maxZ_eq, maxZ_eq]; push_cast [e]
    exact max_le_max h2 h4

theorem Ivl.absI_mem {a : Ivl} {x : ℝ} (ha : a.memb x) : a.absI.memb |x| := by
  obtain ⟨h1, h2⟩ := ha
  have e : |x| * (SZ : ℝ) = |x * SZ| := by
    rw [abs_mul, abs_of_pos SZR_pos]
  constructor
  · show ((maxZ (maxZ a.lo (-a.hi)) 0 : ℤ) : ℝ) ≤ |x| * SZ
    rw [maxZ_eq, maxZ_eq, e]
    push_cast
    refine max_le (max_le ?_ ?_) (abs_nonneg _)
    · exact le_trans h1 (le_abs_self _)
    · exact le_trans (show -(a.hi : ℝ) ≤ -(x * SZ) by linarith) (neg_le_abs (x * (SZ : ℝ)))
  · show |x| * (SZ : ℝ) ≤ ((maxZ (-a.lo) a.hi : ℤ) : ℝ)
    rw [maxZ_eq, e]
    push_cast
    rcases le_total 0 (x * (SZ : ℝ)) with h | h
    · rw [abs_of_nonneg h]
      exact le_max_of_le_right h2
    · rw [abs_of_nonpos h]
      exact le_max_of_le_left (by linarith)

/-- Membership form of the scaled product: if `p ≤ u*v ≤ q` for the scaled
values, then the rounded interval `[p/SZ, q/SZ]` encloses `x*y`. -/
theorem mul_corner_mem {x y : ℝ} {p q : ℤ}
    (hp : (p : ℝ) ≤ (x * (SZ : ℝ)) * (y * (SZ : ℝ)))
    (hq : (x * (SZ : ℝ)) * (y * (SZ : ℝ)) ≤ (q : ℝ)) :
    (Ivl.mk (Int.ediv p SZ) (cdivZ q SZ)).memb (x * y) := by
  have e : x * y * (SZ : ℝ) = (x * (SZ : ℝ)) * (y * (SZ : ℝ)) / SZ := by
    rw [eq_div_iff (ne_of_gt SZR_pos)]
    ring
  constructor
  · show ((Int.ediv p SZ : ℤ) : ℝ) ≤ x * y * SZ
    rw [e]
    refine le_trans (ediv_le_div_real SZ_pos) ?_
    exact (div_le_div_right SZR_pos).mpr hp
  · show x * y * (SZ : ℝ) ≤ ((cdivZ q SZ : ℤ) : ℝ)
    rw [e]
    refine le_trans ?_ (div_le_cdiv_real SZ_pos)
    exact (div_le_div_right SZR_pos).mpr hq

theorem Ivl.mul_mem {a b : Ivl} {x y : ℝ} (ha : a.memb x) (hb : b.memb y) :
    (a.mul b).memb (x * y) := by
  obtain ⟨ha1, ha2⟩ := ha
  obtain ⟨hb1, hb2⟩ := hb
  set u := x * (SZ : ℝ) with hu
  set v := y * (SZ : ℝ) with hv
  rw [Ivl.mul]
  split_ifs with hA hB hC hD hE hF hG hH
  · -- a ≥ 0, b ≥ 0
    have hA' : (0 : ℝ) ≤ (a.lo : ℝ) := by exact_mod_cast leZb_iff.mp hA
    have hB' : (0 : ℝ) ≤ (b.lo : ℝ) := by exact_mod_cast leZb_iff.mp hB
    refine mul_corner_mem ?_ ?_ <;> push_cast
    · nlinarith [mul_nonneg (sub_nonneg.mpr ha1) (sub_nonneg.mpr hb1),
        mul_nonneg hA' (sub_nonneg.mpr hb1), mul_nonneg hB' (sub_nonneg.mpr ha1)]
    · nlinarith [mul_nonneg (sub_nonneg.mpr ha2) (sub_nonneg.mpr hb2),
        mul_nonneg (le_trans hA' ha1) (sub_nonneg.mpr hb2),
        mul_nonneg (le_trans hB' hb1) (sub_nonneg.mpr ha2)]
  · -- a ≥ 0, b ≤ 0
    have hA' : (0 : ℝ) ≤ (a.lo : ℝ) := by exact_mod_cast leZb_iff.mp hA
    have hC' : (b.hi : ℝ) ≤ 0 := by exact_mod_cast leZb_iff.mp hC
    refine mul_corner_mem ?_ ?_ <;> push_cast
    · nlinarith [mul_nonneg (sub_nonneg.mpr ha2) (sub_nonneg.mpr hb1),
        mul_nonneg hA' (sub_nonneg.mpr hb1)]
    · nlinarith [mul_nonneg (sub_nonneg.mpr ha1) (sub_nonneg.mpr hb2),
        mul_nonneg hA' (sub_nonneg.mpr hb2)]
  · -- a ≥ 0, b spans 0
    have hA' : (0 : ℝ) ≤ (a.lo : ℝ) := by exact_mod_cast leZb_iff.mp hA
    have hB' : (b.lo : ℝ) < 0 := by exact_mod_cast leZb_false_iff.mp (by simpa using hB)
    have hC' : (0 : ℝ) < (b.hi : ℝ) := by exact_mod_cast leZb_false_iff.mp (by simpa using hC)
    refine mul_corner_mem ?_ ?_ <;> push_cast
    · nlinarith [mul_nonneg (sub_nonneg.mpr ha2) (sub_nonneg.mpr hb1),
        mul_nonneg (le_trans hA' ha1) (sub_nonneg.mpr hb1)]
    · nlinarith [mul_nonneg (sub_nonneg.mpr ha2) (sub_nonneg.mpr hb2),
        mul_nonneg (le_trans hA' ha1) (sub_nonneg.mpr hb2)]
  · -- a ≤ 0, b ≥ 0
    have hD' : (a.hi : ℝ) ≤ 0 := by exact_mod_cast leZb_iff.mp hD
    have hE' : (0 : ℝ) ≤ (b.lo : ℝ) := by exact_mod_cast leZb_iff.mp hE
    refine mul_corner_mem ?_ ?_ <;> push_cast
    · nlinarith [mul_nonneg (sub_nonneg.mpr ha1) (sub_nonneg.mpr hb2),
        mul_nonneg hE' (sub_nonneg.mpr ha1)]
    · nlinarith [mul_nonneg (sub_nonneg.mpr ha2) (sub_nonneg.mpr hb1),
        mul_nonneg hE' (sub_nonneg.mpr ha2)]
  · -- a ≤ 0, b ≤ 0
    have hD' : (a.hi : ℝ) ≤ 0 := by exact_mod_cast leZb_iff.mp hD
    have hF' : (b.hi : ℝ) ≤ 0 := by exact_mod_cast leZb_iff.mp hF
    refine mul_corner_mem ?_ ?_ <;> push_cast
    · nlinarith [mul_nonneg (sub_nonneg.mpr ha2) (sub_nonneg.mpr hb2)]
    · nlinarith [mul_nonneg (sub_nonneg.mpr ha1) (sub_nonneg.mpr hb1)]
  · -- a ≤ 0, b spans 0
    have hD' : (a.hi : ℝ) ≤ 0 := by exact_mod_cast leZb_iff.mp hD
    have hE' : (b.lo : ℝ) < 0 := by exact_mod_cast leZb_false_iff.mp (by simpa using hE)
    have hF' : (0 : ℝ) < (b.hi : ℝ) := by exact_mod_cast leZb_false_iff.mp (by simpa using hF)
    refine mul_corner_mem ?_ ?_ <;> push_cast
    · nlinarith [mul_nonneg (sub_nonneg.mpr ha1) (sub_nonneg.mpr hb2),
        mul_nonneg (sub_nonneg.mpr (le_trans ha2 hD')) (sub_nonneg.mpr hb2)]
    · nlinarith [mul_nonneg (sub_nonneg.mpr ha1) (sub_nonneg.mpr hb1),
        mul_nonneg (sub_nonneg.mpr (le_trans ha2 hD')) (sub_nonneg.mpr hb1)]
  · -- a spans 0, b ≥ 0
    have hA' : (a.lo : ℝ) < 0 := by exact_mod_cast leZb_false_iff.mp (by simpa using hA)
    have hD' : (0 : ℝ) < (a.hi : ℝ) := by exact_mod_cast leZb_false_iff.mp (by simpa using hD)
    have hG' : (0 : ℝ) ≤ (b.lo : ℝ) := by exact_mod_cast leZb_iff.mp hG
    refine mul_corner_mem ?_ ?_ <;> push_cast
    · nlinarith [mul_nonneg (sub_nonneg.mpr ha1) (sub_nonneg.mpr hb2),
        mul_nonneg (sub_nonneg.mpr ha1) (sub_nonneg.mpr (le_trans hG' hb1))]
    · nlinarith [mul_nonneg (sub_nonneg.mpr ha2) (sub_nonneg.mpr hb2),
        mul_nonneg (sub_nonneg.mpr ha2) (sub_nonneg.mpr (le_trans hG' hb1))]
  · -- a spans 0, b ≤ 0
    have hA' : (a.lo : ℝ) < 0 := by exact_mod_cast leZb_false_iff.mp (by simpa using hA)
    have hD' : (0 : ℝ) < (a.hi : ℝ) := by exact_mod_cast leZb_false_iff.mp (by simpa using hD)
    have hH' : (b.hi : ℝ) ≤ 0 := by exact_mod_cast leZb_iff.mp hH
    refine mul_corner_mem ?_ ?_ <;> push_cast
    · nlinarith [mul_nonneg (sub_nonneg.mpr ha2) (sub_nonneg.mpr hb1),
        mul_nonneg (sub_nonneg.mpr ha2) (sub_nonneg.mpr (le_trans hb2 hH'))]
    · nlinarith [mul_nonneg (sub_nonneg.mpr ha1) (sub_nonneg.mpr hb1),
        mul_nonneg (sub_nonneg.mpr ha1) (sub_nonneg.mpr (le_trans hb2 hH'))]
  · -- both span 0
    have hA' : (a.lo : ℝ) < 0 := by exact_mod_cast leZb_false_iff.mp (by simpa using hA)
    have hD' : (0 : ℝ) < (a.hi : ℝ) := by exact_mod_cast leZb_false_iff.mp (by simpa using hD)
    have hG' : (b.lo : ℝ) < 0 := by exact_mod_cast leZb_false_iff.mp (by simpa using hG)
    have hH' : (0 : ℝ) < (b.hi : ℝ) := by exact_mod_cast leZb_false_iff.mp (by simpa using hH)
    refine mul_corner_mem ?_ ?_
    · rw [minZ_eq]
      push_cast
      rcases le_total 0 u with h0 | h0
      · refine le_trans (min_le_right _ _) ?_
        nlinarith [mul_nonneg (sub_nonneg.mpr ha2) h0]
      · refine le_trans (min_le_left _ _) ?_
        nlinarith [mul_nonneg (sub_nonneg.mpr (neg_nonneg.mpr h0)) (sub_nonneg.mpr hb2)]
    · rw [maxZ_eq]
      push_cast
      rcases le_total 0 u with h0 | h0
      · refine le_trans ?_ (le_max_right _ _)
        nlinarith [mul_nonneg h0 (sub_nonneg.mpr hb2)]
      · refine le_trans ?_ (le_max_left _ _)
        nlinarith [mul_nonneg (neg_nonneg.mpr h0) (sub_nonneg.mpr hb1)]

theorem SN_cast_eq : ((SN : ℕ) : ℝ) = (SZ : ℝ) := by
  rw [SZ]
  push_cast
  rfl

theorem sqrtLoop_invariant : ∀ (f lo hi n : ℕ), lo * lo ≤ n → n < hi * hi →
    (sqrtLoop f lo hi n).1 * (sqrtLoop f lo hi n).1 ≤ n ∧
      n < (sqrtLoop f lo hi n).2 * (sqrtLoop f lo hi n).2 := by
  intro f
  induction f with
  | zero =>
    intro lo hi n h1 h2
    exact ⟨h1, h2⟩
  | succ f ih =>
    intro lo hi n h1 h2
    simp only [sqrtLoop]
    by_cases hle : hi ≤ lo + 1
    · simp only [if_pos hle]
      exact ⟨h1, h2⟩
    · simp only [if_neg hle]
      by_cases hm : (lo + hi) / 2 * ((lo + hi) / 2) ≤ n
      · simp only [if_pos hm]
        exact ih _ _ _ hm h2
      · simp only [if_neg hm]
        exact ih _ _ _ h1 (not_le.mp hm)

theorem sqrtBounds_spec (n : ℕ) :
    (sqrtBounds n).1 * (sqrtBounds n).1 ≤ n ∧ n < (sqrtBounds n).2 * (sqrtBounds n).2 := by
  refine sqrtLoop_invariant 400 0 (n + 1) n (by simp) ?_
  nlinarith

theorem sqrtI_mem {a : Ivl} {x : ℝ} (ha : a.memb x) : (sqrtI a).memb (Real.sqrt x) := by
  obtain ⟨h1, h2⟩ := ha
  have hS0 : (0 : ℝ) ≤ (SZ : ℝ) := le_of_lt SZR_pos
  constructor
  · show (((sqrtBounds (a.lo.toNat * SN)).1 : ℕ) : ℝ) ≤ Real.sqrt x * SZ
    have hspec := (sqrtBounds_spec (a.lo.toNat * SN)).1
    have hcast : (((sqrtBounds (a.lo.toNat * SN)).1 : ℕ) : ℝ) *
        (((sqrtBounds (a.lo.toNat * SN)).1 : ℕ) : ℝ) ≤ ((a.lo.toNat : ℤ) : ℝ) * (SZ : ℝ) := by
      have := hspec
      have h := ((@Nat.cast_le ℝ _ _ _)).mpr this
      push_cast at h
      rw [← SN_cast_eq]
      push_cast
      linarith
    rcases le_total x 0 with hx | hx
    · have hlo : a.lo ≤ 0 := by
        have : (a.lo : ℝ) ≤ 0 := le_trans h1 (by nlinarith)
        exact_mod_cast this
      have htn : a.lo.toNat = 0 := Int.toNat_of_nonpos hlo
      have hL0 : (sqrtBounds (a.lo.toNat * SN)).1 = 0 := by
        rw [htn, zero_mul]
        have h0 := (sqrtBounds_spec 0).1
        have h00 : (sqrtBounds 0).1 * (sqrtBounds 0).1 = 0 := Nat.le_zero.mp h0
        exact Nat.eq_zero_of_mul_eq_zero h00 |>.elim id fun h => h
      rw [hL0, Real.sqrt_eq_zero_of_nonpos hx]
      simp
    · have e : Real.sqrt x * (SZ : ℝ) = Real.sqrt (x * SZ ^ 2) := by
        rw [Real.sqrt_mul' x (by positivity), Real.sqrt_sq hS0]
      rw [e]
      refine Real.le_sqrt_of_sq_le ?_
      have htn : ((a.lo.toNat : ℤ) : ℝ) * (SZ : ℝ) ≤ x * SZ ^ 2 := by
        rcases le_total a.lo 0 with hlo | hlo
        · rw [Int.toNat_of_nonpos hlo]
          push_cast
          nlinarith [mul_nonneg hx (sq_nonneg ((SZ : ℤ) : ℝ))]
        · rw [Int.toNat_of_nonneg hlo]
          nlinarith
      calc (((sqrtBounds (a.lo.toNat * SN)).1 : ℕ) : ℝ) ^ 2
          = (((sqrtBounds (a.lo.toNat * SN)).1 : ℕ) : ℝ) *
            (((sqrtBounds (a.lo.toNat * SN)).1 : ℕ) : ℝ) := by ring
        _ ≤ ((a.lo.toNat : ℤ) : ℝ) * (SZ : ℝ) := hcast
        _ ≤ x * SZ ^ 2 := htn
  · show Real.sqrt x * (SZ : ℝ) ≤ (((sqrtBounds (a.hi.toNat * SN)).2 : ℕ) : ℝ)
    have hspec := (sqrtBounds_spec (a.hi.toNat * SN)).2
    have hUpos : 0 < (sqrtBounds (a.hi.toNat * SN)).2 := by
      by_contra h0
      push_neg at h0
      interval_cases h : (sqrtBounds (a.hi.toNat * SN)).2
      · simp [h] at hspec
    rcases le_total x 0 with hx | hx
    · rw [Real.sqrt_eq_zero_of_nonpos hx]
      simp only [zero_mul]
      positivity
    · have e : Real.sqrt x * (SZ : ℝ) = Real.sqrt (x * SZ ^ 2) := by
        rw [Real.sqrt_mul' x (by positivity), Real.sqrt_sq hS0]
      rw [e]
      have hxS : x * (SZ : ℝ) ^ 2 ≤ ((a.hi.toNat : ℤ) : ℝ) * (SZ : ℝ) := by
        have hhi : (a.hi : ℝ) ≤ ((a.hi.toNat : ℤ) : ℝ) := by
          exact_mod_cast Int.self_le_toNat a.hi
        nlinarith
      have hcast : ((a.hi.toNat : ℤ) : ℝ) * (SZ : ℝ) <
          (((sqrtBounds (a.hi.toNat * SN)).2 : ℕ) : ℝ) ^ 2 := by
        have h := ((@Nat.cast_lt ℝ _ _ _)).mpr hspec
        push_cast at h
        rw [← SN_cast_eq]
        push_cast
        nlinarith
      refine le_of_lt ?_
      refine (Real.sqrt_lt' ?_).mpr ?_
      · exact_mod_cast hUpos
      · linarith

/-! ## Degree-8 and degree-9 Taylor bounds for cosine and sine

Both follow from `Complex.exp_bound` at order 10, splitting the
exponential partial sums of `exp (x*I)` and `exp (-x*I)` into even and odd
parts. -/

theorem sum_exp_even_part (x : ℝ) :
    (∑ m ∈ Finset.range 10, ((x : ℂ) * Complex.I) ^ m / m.factorial) +
      (∑ m ∈ Finset.range 10, (-(x : ℂ) * Complex.I) ^ m / m.factorial) =
      2 * (1 - (x : ℂ) ^ 2 / 2 + (x : ℂ) ^ 4 / 24 - (x : ℂ) ^ 6 / 720 + (x : ℂ) ^ 8 / 40320) := by
  have h2 : Complex.I ^ 2 = -1 := Complex.I_sq
  have h3 : Complex.I ^ 3 = -Complex.I := by rw [pow_succ, h2]; ring
  have h4 : Complex.I ^ 4 = 1 := by rw [pow_succ, h3]; simp [Complex.I_mul_I]
  have h5 : Complex.I ^ 5 = Complex.I := by rw [pow_succ, h4]; ring
  have h6 : Complex.I ^ 6 = -1 := by rw [pow_succ, h5, Complex.I_mul_I]
  have h7 : Complex.I ^ 7 = -Complex.I := by rw [pow_succ, h6]; ring
  have h8 : Complex.I ^ 8 = 1 := by rw [pow_succ, h7]; simp [Complex.I_mul_I]
  have h9 : Complex.I ^ 9 = Complex.I := by rw [pow_succ, h8]; ring
  simp only [Finset.sum_range_succ, Finset.range_zero, Finset.sum_empty, mul_pow]
  rw [h2, h3, h4, h5, h6, h7, h8, h9]
  simp only [Nat.factorial]
  push_cast
  ring

theorem sum_exp_odd_part (x : ℝ) :
    (∑ m ∈ Finset.range 10, (-(x : ℂ) * Complex.I) ^ m / m.factorial) -
      (∑ m ∈ Finset.range 10, ((x : ℂ) * Complex.I) ^ m / m.factorial) =
      -2 * Complex.I *
        ((x : ℂ) - (x : ℂ) ^ 3 / 6 + (x : ℂ) ^ 5 / 120 - (x : ℂ) ^ 7 / 5040 +
          (x : ℂ) ^ 9 / 362880) := by
  have h2 : Complex.I ^ 2 = -1 := Complex.I_sq
  have h3 : Complex.I ^ 3 = -Complex.I := by rw [pow_succ, h2]; ring
  have h4 : Complex.I ^ 4 = 1 := by rw [pow_succ, h3]; simp [Complex.I_mul_I]
  have h5 : Complex.I ^ 5 = Complex.I := by rw [pow_succ, h4]; ring
  have h6 : Complex.I ^ 6 = -1 := by rw [pow_succ, h5, Complex.I_mul_I]
  have h7 : Complex.I ^ 7 = -Complex.I := by rw [pow_succ, h6]; ring
  have h8 : Complex.I ^ 8 = 1 := by rw [pow_succ, h7]; simp [Complex.I_mul_I]
  have h9 : Complex.I ^ 9 = Complex.I := by rw [pow_succ, h8]; ring
  simp only [Finset.sum_range_succ, Finset.range_zero, Finset.sum_empty, mul_pow]
  rw [h2, h3, h4, h5, h6, h7, h8, h9]
  simp only [Nat.factorial]
  push_cast
  ring

set_option maxHeartbeats 1000000 in
theorem cos_taylor_deg8 {x : ℝ} (hx : |x| ≤ 1) :
    |Real.cos x - (1 - x ^ 2 / 2 + x ^ 4 / 24 - x ^ 6 / 720 + x ^ 8 / 40320)| ≤
      |x| ^ 10 * (11 / 36288000) := by
  have habs1 : Complex.abs ((x : ℂ) * Complex.I) ≤ 1 := by
    simpa [Complex.abs_ofReal] using hx
  have habs2 : Complex.abs (-(x : ℂ) * Complex.I) ≤ 1 := by
    simpa [Complex.abs_ofReal] using hx
  have hb1 := @Complex.exp_bound _ habs1 10 (by norm_num)
  have hb2 := @Complex.exp_bound _ habs2 10 (by norm_num)
  have hre : |Real.cos x - (1 - x ^ 2 / 2 + x ^ 4 / 24 - x ^ 6 / 720 + x ^ 8 / 40320)| =
      Complex.abs (Complex.cos x -
        (1 - (x : ℂ) ^ 2 / 2 + (x : ℂ) ^ 4 / 24 - (x : ℂ) ^ 6 / 720 + (x : ℂ) ^ 8 / 40320)) := by
    rw [← Complex.abs_ofReal]
    congr 1
    push_cast [Complex.ofReal_cos]
    ring
  have hsplit : Complex.cos x -
      (1 - (x : ℂ) ^ 2 / 2 + (x : ℂ) ^ 4 / 24 - (x : ℂ) ^ 6 / 720 + (x : ℂ) ^ 8 / 40320) =
      ((Complex.exp ((x : ℂ) * Complex.I) -
          ∑ m ∈ Finset.range 10, ((x : ℂ) * Complex.I) ^ m / m.factorial) +
        (Complex.exp (-(x : ℂ) * Complex.I) -
          ∑ m ∈ Finset.range 10, (-(x : ℂ) * Complex.I) ^ m / m.factorial)) / 2 := by
    simp only [Complex.cos]
    have h := sum_exp_even_part x
    linear_combination (1 / 2 : ℂ) * h
  rw [hre, hsplit]
  calc Complex.abs (((Complex.exp ((x : ℂ) * Complex.I) -
          ∑ m ∈ Finset.range 10, ((x : ℂ) * Complex.I) ^ m / m.factorial) +
        (Complex.exp (-(x : ℂ) * Complex.I) -
          ∑ m ∈ Finset.range 10, (-(x : ℂ) * Complex.I) ^ m / m.factorial)) / 2)
      ≤ (Complex.abs (Complex.exp ((x : ℂ) * Complex.I) -
          ∑ m ∈ Finset.range 10, ((x : ℂ) * Complex.I) ^ m / m.factorial) +
        Complex.abs (Complex.exp (-(x : ℂ) * Complex.I) -
          ∑ m ∈ Finset.range 10, (-(x : ℂ) * Complex.I) ^ m / m.factorial)) / 2 := by
        rw [map_div₀, Complex.abs_two]
        exact (div_le_div_right (by norm_num)).mpr (Complex.abs.add_le _ _)
    _ ≤ (Complex.abs ((x : ℂ) * Complex.I) ^ 10 * ((11 : ℝ) * ((3628800 : ℝ) * 10)⁻¹) +
          Complex.abs (-(x : ℂ) * Complex.I) ^ 10 * ((11 : ℝ) * ((3628800 : ℝ) * 10)⁻¹)) / 2 := by
        have e1 : ((Nat.succ 10 : ℕ) : ℝ) * (((Nat.factorial 10 : ℕ) : ℝ) * (10 : ℕ))⁻¹ =
            (11 : ℝ) * ((3628800 : ℝ) * 10)⁻¹ := by
          norm_num [Nat.factorial]
        rw [← e1]
        exact (div_le_div_right (by norm_num)).mpr (add_le_add hb1 hb2)
    _ ≤ |x| ^ 10 * (11 / 36288000) := by
        have e2 : Complex.abs ((x : ℂ) * Complex.I) = |x| := by
          simp [Complex.abs_ofReal]
        have e3 : Complex.abs (-(x : ℂ) * Complex.I) = |x| := by
          simp [Complex.abs_ofReal]
        rw [e2, e3]
        norm_num

set_option maxHeartbeats 1000000 in
theorem sin_taylor_deg9 {x : ℝ} (hx : |x| ≤ 1) :
    |Real.sin x - (x - x ^ 3 / 6 + x ^ 5 / 120 - x ^ 7 / 5040 + x ^ 9 / 362880)| ≤
      |x| ^ 10 * (11 / 36288000) := by
  have habs1 : Complex.abs ((x : ℂ) * Complex.I) ≤ 1 := by
    simpa [Complex.abs_ofReal] using hx
  have habs2 : Complex.abs (-(x : ℂ) * Complex.I) ≤ 1 := by
    simpa [Complex.abs_ofReal] using hx
  have hb1 := @Complex.exp_bound _ habs1 10 (by norm_num)
  have hb2 := @Complex.exp_bound _ habs2 10 (by norm_num)
  have hre : |Real.sin x - (x - x ^ 3 / 6 + x ^ 5 / 120 - x ^ 7 / 5040 + x ^ 9 / 362880)| =
      Complex.abs (Complex.sin x -
        ((x : ℂ) - (x : ℂ) ^ 3 / 6 + (x : ℂ) ^ 5 / 120 - (x : ℂ) ^ 7 / 5040 +
          (x : ℂ) ^ 9 / 362880)) := by
    rw [← Complex.abs_ofReal]
    congr 1
    push_cast [Complex.ofReal_sin]
    ring
  have hsplit : Complex.sin x -
      ((x : ℂ) - (x : ℂ) ^ 3 / 6 + (x : ℂ) ^ 5 / 120 - (x : ℂ) ^ 7 / 5040 +
        (x : ℂ) ^ 9 / 362880) =
      ((Complex.exp (-(x : ℂ) * Complex.I) -
          ∑ m ∈ Finset.range 10, (-(x : ℂ) * Complex.I) ^ m / m.factorial) -
        (Complex.exp ((x : ℂ) * Complex.I) -
          ∑ m ∈ Finset.range 10, ((x : ℂ) * Complex.I) ^ m / m.factorial)) * Complex.I / 2 := by
    simp only [Complex.sin]
    have h := sum_exp_odd_part x
    linear_combination (Complex.I / 2) * h -
      ((x : ℂ) - (x : ℂ) ^ 3 / 6 + (x : ℂ) ^ 5 / 120 - (x : ℂ) ^ 7 / 5040 +
        (x : ℂ) ^ 9 / 362880) * Complex.I_sq
  rw [hre, hsplit]
  calc Complex.abs (((Complex.exp (-(x : ℂ) * Complex.I) -
          ∑ m ∈ Finset.range 10, (-(x : ℂ) * Complex.I) ^ m / m.factorial) -
        (Complex.exp ((x : ℂ) * Complex.I) -
          ∑ m ∈ Finset.range 10, ((x : ℂ) * Complex.I) ^ m / m.factorial)) * Complex.I / 2)
      ≤ (Complex.abs (Complex.exp (-(x : ℂ) * Complex.I) -
          ∑ m ∈ Finset.range 10, (-(x : ℂ) * Complex.I) ^ m / m.factorial) +
        Complex.abs (Complex.exp ((x : ℂ) * Complex.I) -
          ∑ m ∈ Finset.range 10, ((x : ℂ) * Complex.I) ^ m / m.factorial)) / 2 := by
        rw [map_div₀, map_mul, Complex.abs_I, mul_one, Complex.abs_two]
        exact (div_le_div_right (by norm_num)).mpr (Complex.abs.sub_le_add _ _)
    _ ≤ (Complex.abs (-(x : ℂ) * Complex.I) ^ 10 * ((11 : ℝ) * ((3628800 : ℝ) * 10)⁻¹) +
          Complex.abs ((x : ℂ) * Complex.I) ^ 10 * ((11 : ℝ) * ((3628800 : ℝ) * 10)⁻¹)) / 2 := by
        have e1 : ((Nat.succ 10 : ℕ) : ℝ) * (((Nat.factorial 10 : ℕ) : ℝ) * (10 : ℕ))⁻¹ =
            (11 : ℝ) * ((3628800 : ℝ) * 10)⁻¹ := by
          norm_num [Nat.factorial]
        rw [← e1]
        exact (div_le_div_right (by norm_num)).mpr (add_le_add hb2 hb1)
    _ ≤ |x| ^ 10 * (11 / 36288000) := by
        have e2 : Complex.abs ((x : ℂ) * Complex.I) = |x| := by
          simp [Complex.abs_ofReal]
        have e3 : Complex.abs (-(x : ℂ) * Complex.I) = |x| := by
          simp [Complex.abs_ofReal]
        rw [e2, e3]
        norm_num

/-! ## Soundness of the sine and cosine enclosures -/

theorem memb_abs_le_one {X : Ivl} {x : ℝ} (hm : X.memb x)
    (hlo : -SZ ≤ X.lo) (hhi : X.hi ≤ SZ) : |x| ≤ 1 := by
  obtain ⟨h1, h2⟩ := hm
  have hloR : (-SZ : ℤ) ≤ (X.lo : ℤ) := hlo
  have hl : ((-SZ : ℤ) : ℝ) ≤ x * SZ := le_trans (by exact_mod_cast hloR) h1
  have hh : x * (SZ : ℝ) ≤ ((SZ : ℤ) : ℝ) := le_trans h2 (by exact_mod_cast hhi)
  push_cast at hl
  rw [abs_le]
  constructor
  · nlinarith [SZR_pos]
  · nlinarith [SZR_pos]

theorem memb_scaled_abs_le {X : Ivl} {x : ℝ} (hm : X.memb x) :
    |x| * (SZ : ℝ) ≤ ((maxZ (absZ X.lo) (absZ X.hi) : ℤ) : ℝ) := by
  obtain ⟨h1, h2⟩ := hm
  rw [maxZ_eq, absZ_eq, absZ_eq]
  push_cast
  have e : |x| * (SZ : ℝ) = |x * SZ| := by rw [abs_mul, abs_of_pos SZR_pos]
  rw [e]
  rcases le_total 0 (x * (SZ : ℝ)) with h | h
  · rw [abs_of_nonneg h]
    exact le_max_of_le_right (le_trans h2 (le_abs_self _))
  · rw [abs_of_nonpos h]
    exact le_max_of_le_left (le_trans (by linarith) (neg_le_abs _))

theorem rem10_bound {B : ℤ} {x : ℝ} (hB : |x| * (SZ : ℝ) ≤ (B : ℝ)) :
    |x| ^ 10 * (11 / 36288000) * (SZ : ℝ) ≤ ((rem10 B : ℤ) : ℝ) := by
  have hS := SZR_pos
  have hx0 : (0 : ℝ) ≤ |x| * SZ := mul_nonneg (abs_nonneg x) (le_of_lt hS)
  have hpow : (|x| * (SZ : ℝ)) ^ 10 ≤ ((B : ℝ)) ^ 10 := pow_le_pow_left hx0 hB 10
  have hb : (0 : ℤ) < 36288000 * SZ ^ 9 := mul_pos (by norm_num) (pow_pos SZ_pos 9)
  have hkey := @div_le_cdiv_real (11 * B ^ 10) _ hb
  rw [rem10]
  have e : |x| ^ 10 * (11 / 36288000) * (SZ : ℝ) =
      11 * (|x| * SZ) ^ 10 / (36288000 * (SZ : ℝ) ^ 9) := by
    rw [eq_div_iff (by positivity)]
    ring
  rw [e]
  push_cast
  push_cast at hkey
  calc 11 * (|x| * (SZ : ℝ)) ^ 10 / (36288000 * (SZ : ℝ) ^ 9)
      ≤ 11 * ((B : ℝ)) ^ 10 / (36288000 * (SZ : ℝ) ^ 9) := by
        refine (div_le_div_right (by positivity)).mpr ?_
        nlinarith
    _ ≤ ((cdivZ (11 * B ^ 10) (36288000 * SZ ^ 9) : ℤ) : ℝ) := hkey
    _ ≤ ((cdivZ (11 * B ^ 10) (36288000 * SZ ^ 9) : ℤ) : ℝ) + 1 := by linarith

theorem cosSmallI_mem {X : Ivl} {x : ℝ} (hm : X.memb x) : (cosSmallI X).memb (Real.cos x) := by
  rw [cosSmallI]
  split_ifs with hg
  · exact fullI_mem (abs_le.mpr ⟨Real.neg_one_le_cos x, Real.cos_le_one x⟩)
  · push_neg at hg
    obtain ⟨hlo, hhi⟩ := hg
    have hx1 : |x| ≤ 1 := memb_abs_le_one hm (by linarith) hhi
    have hy : (X.mul X).memb (x * x) := Ivl.mul_mem hm hm
    have hc0 : (ofRatI 1 40320).memb ((1 : ℝ) / 40320) := by
      have := @ofRatI_mem 1 40320 (by norm_num)
      convert this using 2 <;> norm_num
    have hc1 : (ofRatI (-1) 720).memb ((-1 : ℝ) / 720) := by
      have := @ofRatI_mem (-1) 720 (by norm_num)
      convert this using 2 <;> norm_num
    have hc2 : (ofRatI 1 24).memb ((1 : ℝ) / 24) := by
      have := @ofRatI_mem 1 24 (by norm_num)
      convert this using 2 <;> norm_num
    have hc3 : (ofRatI (-1) 2).memb ((-1 : ℝ) / 2) := by
      have := @ofRatI_mem (-1) 2 (by norm_num)
      convert this using 2 <;> norm_num
    have hone : (pointI 1).memb (1 : ℝ) := by
      have := pointI_mem 1
      convert this using 2 <;> norm_num
    have ha3 := Ivl.add_mem (Ivl.mul_mem hy hc0) hc1
    have ha2 := Ivl.add_mem (Ivl.mul_mem hy ha3) hc2
    have ha1 := Ivl.add_mem (Ivl.mul_mem hy ha2) hc3
    have ha0 := Ivl.add_mem (Ivl.mul_mem hy ha1) hone
    rw [seqI_eq]
    refine Ivl.widen_mem ha0 ?_
    have hB := memb_scaled_abs_le hm
    have htay := cos_taylor_deg8 hx1
    have hrem := rem10_bound hB
    have e : Real.cos x -
        (x * x * (x * x * (x * x * (x * x * (1 / 40320) + -1 / 720) + 1 / 24) + -1 / 2) + 1) =
        Real.cos x - (1 - x ^ 2 / 2 + x ^ 4 / 24 - x ^ 6 / 720 + x ^ 8 / 40320) := by
      ring
    rw [e]
    calc |Real.cos x - (1 - x ^ 2 / 2 + x ^ 4 / 24 - x ^ 6 / 720 + x ^ 8 / 40320)| * (SZ : ℝ)
        ≤ |x| ^ 10 * (11 / 36288000) * (SZ : ℝ) := by
          have := SZR_pos
          nlinarith
      _ ≤ _ := hrem

theorem sinSmallI_mem {X : Ivl} {x : ℝ} (hm : X.memb x) : (sinSmallI X).memb (Real.sin x) := by
  rw [sinSmallI]
  split_ifs with hg
  · exact fullI_mem (abs_le.mpr ⟨Real.neg_one_le_sin x, Real.sin_le_one x⟩)
  · push_neg at hg
    obtain ⟨hlo, hhi⟩ := hg
    have hx1 : |x| ≤ 1 := memb_abs_le_one hm (by linarith) hhi
    have hy : (X.mul X).memb (x * x) := Ivl.mul_mem hm hm
    have hc0 : (ofRatI 1 362880).memb ((1 : ℝ) / 362880) := by
      have := @ofRatI_mem 1 362880 (by norm_num)
      convert this using 2 <;> norm_num
    have hc1 : (ofRatI (-1) 5040).memb ((-1 : ℝ) / 5040) := by
      have := @ofRatI_mem (-1) 5040 (by norm_num)
      convert this using 2 <;> norm_num
    have hc2 : (ofRatI 1 120).memb ((1 : ℝ) / 120) := by
      have := @ofRatI_mem 1 120 (by norm_num)
      convert this using 2 <;> norm_num
    have hc3 : (ofRatI (-1) 6).memb ((-1 : ℝ) / 6) := by
      have := @ofRatI_mem (-1) 6 (by norm_num)
      convert this using 2 <;> norm_num
    have hone : (pointI 1).memb (1 : ℝ) := by
      have := pointI_mem 1
      convert this using 2 <;> norm_num
    have ha3 := Ivl.add_mem (Ivl.mul_mem hy hc0) hc1
    have ha2 := Ivl.add_mem (Ivl.mul_mem hy ha3) hc2
    have ha1 := Ivl.add_mem (Ivl.mul_mem hy ha2) hc3
    have ha0 := Ivl.mul_mem hm (Ivl.add_mem (Ivl.mul_mem hy ha1) hone)
    rw [seqI_eq]
    refine Ivl.widen_mem ha0 ?_
    have hB := memb_scaled_abs_le hm
    have htay := sin_taylor_deg9 hx1
    have hrem := rem10_bound hB
    have e : Real.sin x -
        x * (x * x * (x * x * (x * x * (x * x * (1 / 362880) + -1 / 5040) + 1 / 120) + -1 / 6) + 1) =
        Real.sin x - (x - x ^ 3 / 6 + x ^ 5 / 120 - x ^ 7 / 5040 + x ^ 9 / 362880) := by
      ring
    rw [e]
    calc |Real.sin x - (x - x ^ 3 / 6 + x ^ 5 / 120 - x ^ 7 / 5040 + x ^ 9 / 362880)| * (SZ : ℝ)
        ≤ |x| ^ 10 * (11 / 36288000) * (SZ : ℝ) := by
          have := SZR_pos
          nlinarith
      _ ≤ _ := hrem

theorem cosTinyI_mem {X : Ivl} {x : ℝ} (hm : X.memb x) : (cosTinyI X).memb (Real.cos x) := by
  rw [cosTinyI]
  split_ifs with hg
  · exact fullI_mem (abs_le.mpr ⟨Real.neg_one_le_cos x, Real.cos_le_one x⟩)
  · push_neg at hg
    obtain ⟨hlo, hhi⟩ := hg
    have hx1 : |x| ≤ 1 := memb_abs_le_one hm (by linarith) hhi
    have hB := memb_scaled_abs_le hm
    set B : ℤ := maxZ (absZ X.lo) (absZ X.hi) with hBdef
    have hB0 : (0 : ℝ) ≤ (B : ℝ) := le_trans (mul_nonneg (abs_nonneg x) (le_of_lt SZR_pos)) hB
    have hbound := Real.cos_bound hx1
    have hb2 : (0 : ℤ) < 2 * SZ := by linarith [SZ_pos]
    have hb3 : (0 : ℤ) < 96 * SZ ^ 3 := mul_pos (by norm_num) (pow_pos SZ_pos 3)
    have hk2 := @div_le_cdiv_real (B ^ 2) _ hb2
    have hk3 := @div_le_cdiv_real (5 * B ^ 4) _ hb3
    push_cast at hk2 hk3
    have hS := SZR_pos
    have hx2 : x ^ 2 / 2 * (SZ : ℝ) ≤ (B : ℝ) ^ 2 / (2 * (SZ : ℝ)) := by
      have h1 : (x * (SZ : ℝ)) ^ 2 ≤ ((B : ℝ)) ^ 2 := by
        have : |x * (SZ : ℝ)| ≤ (B : ℝ) := by
          rw [abs_mul, abs_of_pos SZR_pos]; exact hB
        nlinarith [abs_nonneg (x * (SZ : ℝ)), le_abs_self (x * (SZ : ℝ)),
          neg_le_abs (x * (SZ : ℝ))]
      rw [le_div_iff₀ (by linarith : (0 : ℝ) < 2 * (SZ : ℝ))]
      nlinarith [h1]
    have hx4 : |x| ^ 4 * (5 / 96) * (SZ : ℝ) ≤ 5 * (B : ℝ) ^ 4 / (96 * (SZ : ℝ) ^ 3) := by
      have h1 : (|x| * (SZ : ℝ)) ^ 4 ≤ ((B : ℝ)) ^ 4 :=
        pow_le_pow_left (mul_nonneg (abs_nonneg x) (le_of_lt SZR_pos)) hB 4
      have h3 : (0 : ℝ) < 96 * (SZ : ℝ) ^ 3 := by
        have := pow_pos SZR_pos 3
        linarith
      rw [le_div_iff₀ h3]
      nlinarith [h1]
    constructor
    · show ((SZ - (cdivZ (B ^ 2) (2 * SZ) + cdivZ (5 * B ^ 4) (96 * SZ ^ 3) + 1) : ℤ) : ℝ) ≤
        Real.cos x * SZ
      have hcge : 1 - x ^ 2 / 2 - |x| ^ 4 * (5 / 96) ≤ Real.cos x := by
        have := abs_le.mp hbound
        linarith [this.1]
      have hmul := mul_le_mul_of_nonneg_right hcge (le_of_lt SZR_pos)
      push_cast
      linarith [hmul, hk2, hk3, hx2, hx4]
    · show Real.cos x * (SZ : ℝ) ≤ ((SZ : ℤ) : ℝ)
      nlinarith [Real.cos_le_one x, SZR_pos]

theorem sinTinyI_mem {X : Ivl} {x : ℝ} (hm : X.memb x) : (sinTinyI X).memb (Real.sin x) := by
  rw [sinTinyI]
  split_ifs with hg
  · exact fullI_mem (abs_le.mpr ⟨Real.neg_one_le_sin x, Real.sin_le_one x⟩)
  · push_neg at hg
    obtain ⟨hlo, hhi⟩ := hg
    have hx1 : |x| ≤ 1 := memb_abs_le_one hm (by linarith) hhi
    have hB := memb_scaled_abs_le hm
    set B : ℤ := maxZ (absZ X.lo) (absZ X.hi) with hBdef
    have hbound := Real.sin_bound hx1
    have hb2 : (0 : ℤ) < 6 * SZ ^ 2 := mul_pos (by norm_num) (pow_pos SZ_pos 2)
    have hb3 : (0 : ℤ) < 96 * SZ ^ 3 := mul_pos (by norm_num) (pow_pos SZ_pos 3)
    have hk2 := @div_le_cdiv_real (B ^ 3) _ hb2
    have hk3 := @div_le_cdiv_real (5 * B ^ 4) _ hb3
    push_cast at hk2 hk3
    have habs0 : (0 : ℝ) ≤ |x| * SZ := mul_nonneg (abs_nonneg x) (le_of_lt SZR_pos)
    have hx3 : |x| ^ 3 / 6 * (SZ : ℝ) ≤ (B : ℝ) ^ 3 / (6 * (SZ : ℝ) ^ 2) := by
      have h1 : (|x| * (SZ : ℝ)) ^ 3 ≤ ((B : ℝ)) ^ 3 := pow_le_pow_left habs0 hB 3
      have h6 : (0 : ℝ) < 6 * (SZ : ℝ) ^ 2 := by
        have := pow_pos SZR_pos 2
        linarith
      rw [le_div_iff₀ h6]
      nlinarith [h1]
    have hx4 : |x| ^ 4 * (5 / 96) * (SZ : ℝ) ≤ 5 * (B : ℝ) ^ 4 / (96 * (SZ : ℝ) ^ 3) := by
      have h1 : (|x| * (SZ : ℝ)) ^ 4 ≤ ((B : ℝ)) ^ 4 := pow_le_pow_left habs0 hB 4
      have h3 : (0 : ℝ) < 96 * (SZ : ℝ) ^ 3 := by
        have := pow_pos SZR_pos 3
        linarith
      rw [le_div_iff₀ h3]
      nlinarith [h1]
    refine Ivl.widen_mem hm ?_
    have habs : |Real.sin x - x| ≤ |x| ^ 3 / 6 + |x| ^ 4 * (5 / 96) := by
      have h1 := abs_le.mp hbound
      have h2 : |x ^ 3| = |x| ^ 3 := by rw [abs_pow]
      rw [abs_le]
      constructor
      · have := abs_nonneg x
        nlinarith [h1.1, neg_le_abs (x ^ 3), le_abs_self (x ^ 3), h2]
      · have := abs_nonneg x
        nlinarith [h1.2, neg_le_abs (x ^ 3), le_abs_self (x ^ 3), h2]
    calc |Real.sin x - x| * (SZ : ℝ)
        ≤ (|x| ^ 3 / 6 + |x| ^ 4 * (5 / 96)) * (SZ : ℝ) := by
          nlinarith [SZR_pos]
      _ ≤ ((cdivZ (B ^ 3) (6 * SZ ^ 2) + cdivZ (5 * B ^ 4) (96 * SZ ^ 3) + 1 : ℤ) : ℝ) := by
          push_cast
          linarith [hk2, hk3, hx3, hx4]

theorem sinCosLadder_mem (k : ℕ) {s c : Ivl} {θ : ℝ}
    (hs : s.memb (Real.sin θ)) (hc : c.memb (Real.cos θ)) :
    (sinCosLadder k (s, c)).1.memb (Real.sin ((2 : ℝ) ^ k * θ)) ∧
    (sinCosLadder k (s, c)).2.memb (Real.cos ((2 : ℝ) ^ k * θ)) := by
  induction k generalizing s c θ with
  | zero =>
    simp only [sinCosLadder, pow_zero, one_mul]
    exact ⟨hs, hc⟩
  | succ k ih =>
    simp only [sinCosLadder, seqI_eq]
    have hs2 : ((s.mul c).double).memb (Real.sin (2 * θ)) := by
      rw [Real.sin_two_mul, mul_assoc]
      exact Ivl.double_mem (Ivl.mul_mem hs hc)
    have hc2 : (((c.mul c).double).sub (pointI 1)).memb (Real.cos (2 * θ)) := by
      rw [Real.cos_two_mul]
      have h := Ivl.sub_mem (Ivl.double_mem (Ivl.mul_mem hc hc)) (pointI_mem 1)
      convert h using 2
      · ring
      · push_cast
        ring
    have h := ih hs2 hc2
    have e : (2 : ℝ) ^ (k + 1) * θ = (2 : ℝ) ^ k * (2 * θ) := by ring
    rw [e]
    exact h

theorem pointSinCos_mem (m : ℤ) :
    (pointSinCos m).1.memb (Real.sin ((m : ℝ) / (SZ : ℝ))) ∧
    (pointSinCos m).2.memb (Real.cos ((m : ℝ) / (SZ : ℝ))) := by
  have hSne : ((SZ : ℤ) : ℝ) ≠ 0 := ne_of_gt SZR_pos
  have h2ne : ((2 : ℝ) ^ ladderK) ≠ 0 := by positivity
  have h2K : (0 : ℤ) < ((2 ^ ladderK : ℕ) : ℤ) := by positivity
  have hx0 : (Ivl.mk (Int.ediv m ((2 ^ ladderK : ℕ) : ℤ)) (cdivZ m ((2 ^ ladderK : ℕ) : ℤ))).memb
      ((m : ℝ) / (SZ : ℝ) / (2 : ℝ) ^ ladderK) := by
    have e : (m : ℝ) / (SZ : ℝ) / (2 : ℝ) ^ ladderK * (SZ : ℝ) =
        (m : ℝ) / (((2 ^ ladderK : ℕ) : ℤ) : ℝ) := by
      push_cast
      field_simp
      ring
    constructor
    · rw [e]
      exact ediv_le_div_real h2K
    · rw [e]
      exact div_le_cdiv_real h2K
  have hs0 := sinSmallI_mem hx0
  have hc0 := cosSmallI_mem hx0
  have hlad := sinCosLadder_mem ladderK hs0 hc0
  have e2 : (2 : ℝ) ^ ladderK * ((m : ℝ) / (SZ : ℝ) / (2 : ℝ) ^ ladderK) =
      (m : ℝ) / (SZ : ℝ) := by
    field_simp
    ring
  rw [e2] at hlad
  simp only [pointSinCos, seqI_eq]
  exact hlad

theorem dyadicPoint_mem (m : ℤ) : (Ivl.mk m m).memb ((m : ℝ) / (SZ : ℝ)) := by
  constructor
  · show ((m : ℤ) : ℝ) ≤ (m : ℝ) / SZ * SZ
    rw [div_mul_cancel₀ _ (ne_of_gt SZR_pos)]
  · show (m : ℝ) / (SZ : ℝ) * SZ ≤ ((m : ℤ) : ℝ)
    rw [div_mul_cancel₀ _ (ne_of_gt SZR_pos)]

theorem cosIvl_mem {X : Ivl} {x : ℝ} (hm : X.memb x) : (cosIvl X).memb (Real.cos x) := by
  rw [cosIvl]
  simp only [seqI_eq, seqZ_eq]
  generalize Int.ediv (X.lo + X.hi) 2 = m
  have hpc := pointSinCos_mem m
  have hR : (X.sub ⟨m, m⟩).memb (x - (m : ℝ) / (SZ : ℝ)) := Ivl.sub_mem hm (dyadicPoint_mem m)
  have key := Ivl.sub_mem (Ivl.mul_mem hpc.2 (cosTinyI_mem hR)) (Ivl.mul_mem hpc.1 (sinTinyI_mem hR))
  have e1 : (m : ℝ) / (SZ : ℝ) + (x - (m : ℝ) / (SZ : ℝ)) = x := by ring
  have e := Real.cos_add ((m : ℝ) / (SZ : ℝ)) (x - (m : ℝ) / (SZ : ℝ))
  rw [e1] at e
  rw [e]
  exact key

theorem sinIvl_mem {X : Ivl} {x : ℝ} (hm : X.memb x) : (sinIvl X).memb (Real.sin x) := by
  rw [sinIvl]
  simp only [seqI_eq, seqZ_eq]
  generalize Int.ediv (X.lo + X.hi) 2 = m
  have hpc := pointSinCos_mem m
  have hR : (X.sub ⟨m, m⟩).memb (x - (m : ℝ) / (SZ : ℝ)) := Ivl.sub_mem hm (dyadicPoint_mem m)
  have key := Ivl.add_mem (Ivl.mul_mem hpc.1 (cosTinyI_mem hR)) (Ivl.mul_mem hpc.2 (sinTinyI_mem hR))
  have e1 : (m : ℝ) / (SZ : ℝ) + (x - (m : ℝ) / (SZ : ℝ)) = x := by ring
  have e := Real.sin_add ((m : ℝ) / (SZ : ℝ)) (x - (m : ℝ) / (SZ : ℝ))
  rw [e1] at e
  rw [e]
  exact key

/-! ## Soundness of the interval march evaluator -/

theorem memb_congr {I : Ivl} {x y : ℝ} (h : I.memb x) (e : x = y) : I.memb y := e ▸ h

theorem waveStepI_mem {u : MarchIvls} {pw ph t angle : ℝ} {dir : Vec3R}
    (hu : u.matchesR pw ph t angle dir) (i : ℕ)
    {st : IvlV3 × Ivl × Ivl} {sv : Vec3R × ℝ × ℝ} (hst : trimemb st sv) :
    trimemb (waveStepI u i st) (waveStep t i sv) := by
  obtain ⟨hc, hs, hph, hpw, hdx, hdy, hdz, ht, hca, hsa⟩ := hu
  obtain ⟨hx, hy, hz, hf, ha⟩ := hst
  have hrx : ((u.c04.mul st.1.x).sub (u.s04.mul st.1.z)).memb
      (Real.cos 0.4 * sv.1.x - Real.sin 0.4 * sv.1.z) :=
    Ivl.sub_mem (Ivl.mul_mem hc hx) (Ivl.mul_mem hs hz)
  have hrz : ((u.s04.mul st.1.x).add (u.c04.mul st.1.z)).memb
      (Real.sin 0.4 * sv.1.x + Real.cos 0.4 * sv.1.z) :=
    Ivl.add_mem (Ivl.mul_mem hs hx) (Ivl.mul_mem hc hz)
  have hphase : ((u.t.mul (pointI (i : ℤ))).mul (pointI 2)).memb (t * (i : ℝ) * 2) := by
    refine memb_congr (Ivl.mul_mem (Ivl.mul_mem ht (pointI_mem (i : ℤ))) (pointI_mem 2)) ?_
    push_cast
    ring
  have hox := cosIvl_mem (Ivl.sub_mem (Ivl.mul_mem hrz hf) hphase)
  have hoy := cosIvl_mem (Ivl.sub_mem (Ivl.mul_mem hrx hf) hphase)
  have hoz := cosIvl_mem (Ivl.sub_mem (Ivl.mul_mem hy hf) hphase)
  refine ⟨?_, ?_, ?_, ?_, ?_⟩ <;>
    simp only [waveStepI, waveStep, rotMul, seqI_eq]
  · exact Ivl.add_mem hrx (Ivl.mul_mem hox ha)
  · exact Ivl.add_mem hy (Ivl.mul_mem hoy ha)
  · exact Ivl.add_mem hrz (Ivl.mul_mem hoz ha)
  · exact memb_congr (Ivl.mul_mem hf (pointI_mem 2)) (by norm_num)
  · exact memb_congr (Ivl.mul_mem ha (ofRatI_mem (by norm_num))) (by norm_num)

theorem marchPosI_mem {u : MarchIvls} {pw ph t angle : ℝ} {dir : Vec3R}
    (hu : u.matchesR pw ph t angle dir) {dI : Ivl} {d : ℝ} (hd : dI.memb d) :
    (marchPosI u dI).x.memb (marchPos angle dir d).x ∧
    (marchPosI u dI).y.memb (marchPos angle dir d).y ∧
    (marchPosI u dI).z.memb (marchPos angle dir d).z := by
  obtain ⟨hc, hs, hph, hpw, hdx, hdy, hdz, ht, hca, hsa⟩ := hu
  have hpx : ((pointI 0).add (u.dirX.mul dI)).memb (0 + dir.x * d) :=
    memb_congr (Ivl.add_mem (pointI_mem 0) (Ivl.mul_mem hdx hd)) (by norm_num)
  have hpy : ((pointI 0).add (u.dirY.mul dI)).memb (0 + dir.y * d) :=
    memb_congr (Ivl.add_mem (pointI_mem 0) (Ivl.mul_mem hdy hd)) (by norm_num)
  have hpz : ((pointI (-10)).add (u.dirZ.mul dI)).memb (-10 + dir.z * d) :=
    memb_congr (Ivl.add_mem (pointI_mem (-10)) (Ivl.mul_mem hdz hd)) (by norm_num)
  refine ⟨?_, ?_, ?_⟩ <;>
    simp only [marchPosI, marchPos, rotMul, seqI_eq]
  · exact Ivl.sub_mem (Ivl.mul_mem hca hpx) (Ivl.mul_mem hsa hpz)
  · exact hpy
  · exact Ivl.add_mem (Ivl.mul_mem hsa hpx) (Ivl.mul_mem hca hpz)

theorem blendMinI_mem {a b : Ivl} {x y : ℝ} (ha : a.memb x) (hb : b.memb y) :
    (blendMinI a b).memb (blendMin x y 1) := by
  have hh : (((pointI 4).sub (Ivl.absI (a.sub b))).maxI (pointI 0)).memb
      (max ((1 : ℝ) * 4 - |x - y|) 0) := by
    refine memb_congr
      (Ivl.maxI_mem (Ivl.sub_mem (pointI_mem 4) (Ivl.absI_mem (Ivl.sub_mem ha hb)))
        (pointI_mem 0)) ?_
    norm_num
  have hres := Ivl.sub_mem (Ivl.minI_mem ha hb)
    (Ivl.mul_mem (Ivl.mul_mem (Ivl.mul_mem hh hh) (@ofRatI_mem 1 4 (by norm_num)))
      (@ofRatI_mem 1 4 (by norm_num)))
  simp only [blendMinI, seqI_eq]
  refine memb_congr hres ?_
  simp only [blendMin]
  push_cast
  ring_nf

theorem blendMaxI_mem {a b : Ivl} {x y : ℝ} (ha : a.memb x) (hb : b.memb y) :
    (blendMaxI a b).memb (blendMax x y 1) := by
  rw [blendMaxI, blendMax]
  have := Ivl.neg_mem (blendMinI_mem (Ivl.neg_mem ha) (Ivl.neg_mem hb))
  simpa [seqI_eq] using this

theorem marchSampleI_mem {u : MarchIvls} {pw ph t angle : ℝ} {dir : Vec3R}
    (hu : u.matchesR pw ph t angle dir) {dI : Ivl} {d : ℝ} (hd : dI.memb d) :
    (marchSampleI u dI).memb (marchSample pw ph t angle dir d) := by
  obtain ⟨hpx, hpy, hpz⟩ := marchPosI_mem hu hd
  have hph := hu.2.2.1
  have hpw := hu.2.2.2.1
  have ht := hu.2.2.2.2.2.2.2.1
  have hw0 : trimemb
      (⟨(marchPosI u dI).x, ((marchPosI u dI).y.mul u.ph).add u.t, (marchPosI u dI).z⟩,
        pointI 1, pointI 1)
      (⟨(marchPos angle dir d).x, (marchPos angle dir d).y * ph + t, (marchPos angle dir d).z⟩,
        1, 1) :=
    ⟨hpx, Ivl.add_mem (Ivl.mul_mem hpy hph) ht, hpz,
      memb_congr (pointI_mem 1) (by norm_num), memb_congr (pointI_mem 1) (by norm_num)⟩
  have hw4 := waveStepI_mem hu 3 (waveStepI_mem hu 2 (waveStepI_mem hu 1 (waveStepI_mem hu 0 hw0)))
  obtain ⟨hw4x, hw4y, hw4z, -, -⟩ := hw4
  have hcx := cosIvl_mem hw4x
  have hcz := cosIvl_mem hw4z
  have hsq1 := sqrtI_mem (Ivl.add_mem (Ivl.mul_mem hcx hcx) (Ivl.mul_mem hcz hcz))
  have hfield := Ivl.sub_mem hsq1 (@ofRatI_mem 1 5 (by norm_num))
  have hsq2 := sqrtI_mem (Ivl.add_mem (Ivl.mul_mem hpx hpx) (Ivl.mul_mem hpz hpz))
  have hrad := Ivl.sub_mem hsq2 hpw
  have hbl := blendMaxI_mem hrad hfield
  have hres := Ivl.add_mem
    (Ivl.mul_mem (Ivl.absI_mem hbl) (@ofRatI_mem 3 20 (by norm_num)))
    (@ofRatI_mem 1 100 (by norm_num))
  simp only [marchSampleI, seqI_eq]
  refine memb_congr hres ?_
  simp only [marchSample, applyWaveDeformation, length2]
  push_cast
  ring_nf

/-! ## Soundness of the march certificate -/

theorem tail_reach {dI : Ivl} {d : ℝ} (hd : dI.memb d) (hT : tailTarget ≤ dI.lo) :
    ((tailTarget : ℤ) : ℝ) / (SZ : ℝ) ≤ d := by
  rw [div_le_iff₀ SZR_pos]
  calc ((tailTarget : ℤ) : ℝ) ≤ ((dI.lo : ℤ) : ℝ) := by exact_mod_cast hT
    _ ≤ d * SZ := hd.1

theorem epsUB_ge : (SZ : ℝ) / 1000 ≤ ((epsUB : ℤ) : ℝ) := by
  unfold epsUB
  have h := @div_le_cdiv_real SZ 1000 (by norm_num)
  push_cast at h ⊢
  exact h

theorem marchLoop_count_color {pw ph t angle : ℝ} {dir tc bc : Vec3R} :
    ∀ (F : ℕ) (d : ℝ) (c1 c2 : Vec3R),
      (marchLoop pw ph t angle dir tc bc F d c1).1 =
        (marchLoop pw ph t angle dir tc bc F d c2).1 ∧
      (marchLoop pw ph t angle dir tc bc F d c1).2.1 =
        (marchLoop pw ph t angle dir tc bc F d c2).2.1 := by
  intro F
  induction F with
  | zero => intro d c1 c2; exact ⟨rfl, rfl⟩
  | succ F ih =>
    intro d c1 c2
    simp only [marchLoop]
    split_ifs with h
    · exact ⟨rfl, rfl⟩
    · exact ⟨congrArg (· + 1) (ih _ _ _).1, (ih _ _ _).2⟩

theorem checkLoop_sound {pw ph t angle : ℝ} {dir topColor bottomColor : Vec3R} {u : MarchIvls}
    (hu : u.matchesR pw ph t angle dir)
    (htail : ∀ (F : ℕ) (dp : ℝ) (color : Vec3R), 39 ≤ F →
      ((tailTarget : ℤ) : ℝ) / (SZ : ℝ) ≤ dp →
      (marchLoop pw ph t angle dir topColor bottomColor F dp color).2.1 = true ∧
      (marchLoop pw ph t angle dir topColor bottomColor F dp color).1 ≤ 39) :
    ∀ (fuel : ℕ) (dI : Ivl) (d : ℝ), dI.memb d → checkLoop u fuel dI = true →
      ∀ (F : ℕ) (color : Vec3R), fuel + 39 ≤ F →
        (marchLoop pw ph t angle dir topColor bottomColor F d color).2.1 = true ∧
        (marchLoop pw ph t angle dir topColor bottomColor F d color).1 ≤ fuel + 39 := by
  intro fuel
  induction fuel with
  | zero =>
    intro dI d hd hchk F color hF
    simp only [checkLoop] at hchk
    have h := htail F d color (by omega) (tail_reach hd (leZb_iff.mp hchk))
    exact ⟨h.1, by omega⟩
  | succ fuel ih =>
    intro dI d hd hchk F color hF
    simp only [checkLoop, seqI_eq] at hchk
    by_cases hT : leZb tailTarget dI.lo = true
    · have h := htail F d color (by omega) (tail_reach hd (leZb_iff.mp hT))
      exact ⟨h.1, by omega⟩
    · rw [if_neg hT] at hchk
      by_cases h50 : dI.hi ≤ 50 * SZ
      · rw [if_pos h50] at hchk
        by_cases heps : epsUB ≤ (marchSampleI u dI).lo
        · rw [if_pos heps] at hchk
          have hfd := marchSampleI_mem hu hd
          have hfd_eps : ¬ (marchSample pw ph t angle dir d < shaderEPS) := by
            intro hlt
            have h1 : ((epsUB : ℤ) : ℝ) ≤ marchSample pw ph t angle dir d * SZ :=
              le_trans (by exact_mod_cast heps) hfd.1
            unfold shaderEPS at hlt
            nlinarith [SZR_pos, epsUB_ge, mul_pos (sub_pos.mpr hlt) SZR_pos]
          have hd50 : ¬ (d > 50) := by
            intro hgt
            have h1 : d * (SZ : ℝ) ≤ ((dI.hi : ℤ) : ℝ) := hd.2
            have h2 : ((dI.hi : ℤ) : ℝ) ≤ 50 * (SZ : ℝ) := by exact_mod_cast h50
            nlinarith [mul_pos (sub_pos.mpr hgt) SZR_pos]
          cases F with
          | zero => omega
          | succ F1 =>
            have hstep1 : (marchLoop pw ph t angle dir topColor bottomColor (F1 + 1) d color).2.1
                = (marchLoop pw ph t angle dir topColor bottomColor F1
                    (d + marchSample pw ph t angle dir d) color).2.1 := by
              simp only [marchLoop]
              rw [if_neg (not_or.mpr ⟨hfd_eps, hd50⟩)]
              exact (marchLoop_count_color F1 _ _ _).2
            have hstep2 : (marchLoop pw ph t angle dir topColor bottomColor (F1 + 1) d color).1
                = (marchLoop pw ph t angle dir topColor bottomColor F1
                    (d + marchSample pw ph t angle dir d) color).1 + 1 := by
              simp only [marchLoop]
              rw [if_neg (not_or.mpr ⟨hfd_eps, hd50⟩)]
              exact congrArg (· + 1) (marchLoop_count_color F1 _ _ _).1
            obtain ⟨hb, hc⟩ := ih (dI.add (marchSampleI u dI))
              (d + marchSample pw ph t angle dir d) (Ivl.add_mem hd hfd) hchk F1 color (by omega)
            refine ⟨hstep1.trans hb, ?_⟩
            rw [hstep2]
            omega
        · rw [if_neg heps] at hchk
          exact Bool.noConfusion hchk
      · rw [if_neg h50] at hchk
        exact Bool.noConfusion hchk

/-! ## The analytic tail of the C5 march

Past depth `13.2` the sample position of the C5 ray lies at distance
`d - 10` from the axis, so the radial bound `d - 13` alone forces a step
of at least `0.15 * (d - 13) + 0.01`; the excess depth beyond `13`
therefore grows geometrically with ratio at least `1.15` and exceeds the
break threshold `50` within 38 further steps. -/

theorem blendMin_le_left (a b : ℝ) : blendMin a b 1 ≤ a := by
  simp only [blendMin]
  have h0 : (0 : ℝ) ≤ max (1 * 4 - |a - b|) 0 := le_max_right _ _
  have hmin : min a b ≤ a := min_le_left a b
  have hsq : (0 : ℝ) ≤ max (1 * 4 - |a - b|) 0 * max (1 * 4 - |a - b|) 0 * 0.25 / (1 * 4) :=
    div_nonneg (mul_nonneg (mul_nonneg h0 h0) (by norm_num)) (by norm_num)
  linarith

theorem blendMax_ge_left (a b : ℝ) : a ≤ blendMax a b 1 := by
  rw [blendMax]
  have := blendMin_le_left (-a) (-b)
  linarith

theorem marchSample_c5_lb (d : ℝ) :
    0.15 * (d - 13) + 0.01 ≤ marchSample 3 0.4 0 0 ⟨0, 0, 1⟩ d := by
  have key : ∀ bl : ℝ, d - 13 ≤ bl → 0.15 * (d - 13) + 0.01 ≤ |bl| * 0.15 + 0.01 := by
    intro bl h
    have := le_abs_self bl
    nlinarith
  simp only [marchSample]
  refine key _ ?_
  refine le_trans ?_ (blendMax_ge_left _ _)
  simp only [marchPos, rotMul, length2]
  have e : Real.sqrt ((Real.cos 0 * (0 + 0 * d) - Real.sin 0 * (-10 + 1 * d)) ^ 2 +
      (Real.sin 0 * (0 + 0 * d) + Real.cos 0 * (-10 + 1 * d)) ^ 2) = |d - 10| := by
    rw [Real.cos_zero, Real.sin_zero]
    rw [show (1 * (0 + 0 * d) - 0 * (-10 + 1 * d)) ^ 2 +
        (0 * (0 + 0 * d) + 1 * (-10 + 1 * d)) ^ 2 = (d - 10) ^ 2 by ring]
    exact Real.sqrt_sq_eq_abs _
  rw [e]
  have := le_abs_self (d - 10)
  linarith

theorem marchLoop_c5_tail {tc bc : Vec3R} :
    ∀ (k F : ℕ) (d : ℝ) (color : Vec3R), k + 1 ≤ F →
      37 < (23 / 20 : ℝ) ^ k * (d - 13) → 13.2 ≤ d →
      (marchLoop 3 0.4 0 0 ⟨0, 0, 1⟩ tc bc F d color).2.1 = true ∧
      (marchLoop 3 0.4 0 0 ⟨0, 0, 1⟩ tc bc F d color).1 ≤ k + 1 := by
  intro k
  induction k with
  | zero =>
    intro F d color hF h37 h13
    cases F with
    | zero => omega
    | succ F1 =>
      simp only [marchLoop]
      have hbrk : marchSample 3 0.4 0 0 ⟨0, 0, 1⟩ d < shaderEPS ∨ d > 50 := by
        right
        simp only [pow_zero, one_mul] at h37
        linarith
      rw [if_pos hbrk]
      exact ⟨rfl, le_refl 1⟩
  | succ k ih =>
    intro F d color hF h37 h13
    cases F with
    | zero => omega
    | succ F1 =>
      by_cases hbrk : marchSample 3 0.4 0 0 ⟨0, 0, 1⟩ d < shaderEPS ∨ d > 50
      · simp only [marchLoop]
        rw [if_pos hbrk]
        exact ⟨rfl, by omega⟩
      · have hfd := marchSample_c5_lb d
        have hd13 : (0.2 : ℝ) ≤ d - 13 := by linarith
        have hnew13 : (13.2 : ℝ) ≤ d + marchSample 3 0.4 0 0 ⟨0, 0, 1⟩ d := by nlinarith
        have hgrow : (23 / 20 : ℝ) * (d - 13) ≤ (d + marchSample 3 0.4 0 0 ⟨0, 0, 1⟩ d) - 13 := by
          linarith
        have h37n : 37 < (23 / 20 : ℝ) ^ k * ((d + marchSample 3 0.4 0 0 ⟨0, 0, 1⟩ d) - 13) := by
          have hp : (0 : ℝ) < (23 / 20 : ℝ) ^ k := by positivity
          calc (37 : ℝ) < (23 / 20 : ℝ) ^ (k + 1) * (d - 13) := h37
            _ = (23 / 20 : ℝ) ^ k * ((23 / 20 : ℝ) * (d - 13)) := by ring
            _ ≤ (23 / 20 : ℝ) ^ k * ((d + marchSample 3 0.4 0 0 ⟨0, 0, 1⟩ d) - 13) :=
                mul_le_mul_of_nonneg_left hgrow (le_of_lt hp)
        have hstep1 : (marchLoop 3 0.4 0 0 ⟨0, 0, 1⟩ tc bc (F1 + 1) d color).2.1
            = (marchLoop 3 0.4 0 0 ⟨0, 0, 1⟩ tc bc F1
                (d + marchSample 3 0.4 0 0 ⟨0, 0, 1⟩ d) color).2.1 := by
          simp only [marchLoop]
          rw [if_neg hbrk]
          exact (marchLoop_count_color F1 _ _ _).2
        have hstep2 : (marchLoop 3 0.4 0 0 ⟨0, 0, 1⟩ tc bc (F1 + 1) d color).1
            = (marchLoop 3 0.4 0 0 ⟨0, 0, 1⟩ tc bc F1
                (d + marchSample 3 0.4 0 0 ⟨0, 0, 1⟩ d) color).1 + 1 := by
          simp only [marchLoop]
          rw [if_neg hbrk]
          exact congrArg (· + 1) (marchLoop_count_color F1 _ _ _).1
        obtain ⟨hb, hc⟩ := ih F1 (d + marchSample 3 0.4 0 0 ⟨0, 0, 1⟩ d) color (by omega) h37n hnew13
        refine ⟨hstep1.trans hb, ?_⟩
        rw [hstep2]
        omega

theorem c5u_matches : c5u.matchesR 3 0.4 0 0 ⟨0, 0, 1⟩ := by
  refine ⟨?_, ?_, ?_, ?_, ?_, ?_, ?_, ?_, ?_, ?_⟩
  · exact memb_congr (cosIvl_mem (@ofRatI_mem 2 5 (by norm_num))) (by norm_num)
  · exact memb_congr (sinIvl_mem (@ofRatI_mem 2 5 (by norm_num))) (by norm_num)
  · exact memb_congr (@ofRatI_mem 2 5 (by norm_num)) (by norm_num)
  · exact memb_congr (pointI_mem 3) (by norm_num)
  · exact memb_congr (pointI_mem 0) (by norm_num)
  · exact memb_congr (pointI_mem 0) (by norm_num)
  · exact memb_congr (pointI_mem 1) (by norm_num)
  · exact memb_congr (pointI_mem 0) (by norm_num)
  · exact memb_congr (pointI_mem 1) (by norm_num [Real.cos_zero])
  · exact memb_congr (pointI_mem 0) (by norm_num [Real.sin_zero])

theorem c5_tail {tc bc : Vec3R} (F : ℕ) (dp : ℝ) (color : Vec3R) (hF : 39 ≤ F)
    (hdp : ((tailTarget : ℤ) : ℝ) / (SZ : ℝ) ≤ dp) :
    (marchLoop 3 0.4 0 0 ⟨0, 0, 1⟩ tc bc F dp color).2.1 = true ∧
    (marchLoop 3 0.4 0 0 ⟨0, 0, 1⟩ tc bc F dp color).1 ≤ 39 := by
  have h132 : (13.2 : ℝ) ≤ dp := by
    have hq := @div_le_cdiv_real (66 * SZ) 5 (by norm_num)
    push_cast at hq
    have h2 : (13.2 : ℝ) ≤ ((tailTarget : ℤ) : ℝ) / (SZ : ℝ) := by
      unfold tailTarget
      rw [le_div_iff₀ SZR_pos]
      linarith [hq]
    linarith
  have h37 : 37 < (23 / 20 : ℝ) ^ 38 * (dp - 13) := by
    have hp : (37 : ℝ) < (23 / 20 : ℝ) ^ 38 * 0.2 := by norm_num
    have h02 : (0.2 : ℝ) ≤ dp - 13 := by linarith
    have hge : (23 / 20 : ℝ) ^ 38 * 0.2 ≤ (23 / 20 : ℝ) ^ 38 * (dp - 13) :=
      mul_le_mul_of_nonneg_left h02 (by positivity)
    linarith
  have h := @marchLoop_c5_tail tc bc 38 F dp color (by omega) h37 h132
  exact ⟨h.1, by omega⟩

theorem length3_unit : length3 ⟨(0 : ℝ), 0, 1⟩ = 1 := by
  simp only [length3]
  norm_num

theorem normalizeV_unit : normalizeV ⟨(0 : ℝ), 0, 1⟩ = ⟨0, 0, 1⟩ := by
  simp only [normalizeV, length3_unit]
  norm_num

theorem rotMul_zero_vec (θ : ℝ) : rotMul ⟨0, 0⟩ θ = ⟨0, 0⟩ := by
  simp only [rotMul]
  norm_num

theorem rayRotationAngle_c5 : rayRotationAngle false ⟨0, 0⟩ 0 = 0 := by
  simp only [rayRotationAngle]
  rw [if_neg (by simp)]
  norm_num

theorem shaderMarch_c5_eq (tc bc : Vec3R) :
    shaderMarch ⟨0, 0⟩ 0 false ⟨0, 0⟩ 3 0.4 0 tc bc
      = marchLoop 3 0.4 0 0 ⟨0, 0, 1⟩ tc bc 100 0.1 ⟨0, 0, 0⟩ := by
  simp only [shaderMarch, rotMul_zero_vec, rayRotationAngle_c5]
  rw [normalizeV_unit]

/-- One certified level of `checkLoop`: the depth interval has not yet
reached the tail target, stays at most 50, and the interval field value
(computed by kernel evaluation in the step theorems below) clears the
break threshold, so the checker continues with the advanced depth. -/
theorem checkLoop_step {u : MarchIvls} {dI fI dI' : Ivl} (n : ℕ)
    (hA : leZb tailTarget dI.lo = false)
    (hB : dI.hi ≤ 50 * SZ)
    (hf : marchSampleI u dI = fI)
    (hC : epsUB ≤ fI.lo)
    (hadd : dI.add fI = dI')
    (hrec : checkLoop u n dI' = true) :
    checkLoop u (n + 1) dI = true := by
  simp only [checkLoop, seqI_eq, hf, hadd]
  rw [if_neg (by simp [hA]), if_pos hB, if_pos hC]
  exact hrec

/-- Level 52 of the C5 certificate: the depth interval has passed the
tail target `13.2`. -/
theorem c5s52 : checkLoop c5u (0 + 1) (Ivl.mk 68795407906488021823813018358518726 68795407907090859783939570648598802) = true := by
  simp only [checkLoop]
  rw [if_pos (by decide : leZb tailTarget (Ivl.mk 68795407906488021823813018358518726 68795407907090859783939570648598802).lo = true)]

set_option maxRecDepth 1000000 in
/-- Level 51 of the C5 certificate (kernel evaluation of one interval
march sample). -/
theorem c5s51 : checkLoop c5u (1 + 1) (Ivl.mk 67557664813117725733011198342105802 67557664813459369793044837506633340) = true :=
  @checkLoop_step c5u (Ivl.mk 67557664813117725733011198342105802 67557664813459369793044837506633340) (Ivl.mk 1237743093370296090801820016412924 1237743093631489990894733141965462) (Ivl.mk 68795407906488021823813018358518726 68795407907090859783939570648598802) 1
    (by decide) (by decide) (by decide!) (by decide) (by decide) c5s52

set_option maxRecDepth 1000000 in
/-- Level 50 of the C5 certificate (kernel evaluation of one interval
march sample). -/
theorem c5s50 : checkLoop c5u (2 + 1) (Ivl.mk 66334291235968484221039310980836567 66334291236159500832648081387459066) = true :=
  @checkLoop_step c5u (Ivl.mk 66334291235968484221039310980836567 66334291236159500832648081387459066) (Ivl.mk 1223373577149241511971887361269235 1223373577299868960396756119174274) (Ivl.mk 67557664813117725733011198342105802 67557664813459369793044837506633340) 2
    (by decide) (by decide) (by decide!) (by decide) (by decide) c5s51

set_option maxRecDepth 1000000 in
/-- Level 49 of the C5 certificate (kernel evaluation of one interval
march sample). -/
theorem c5s49 : checkLoop c5u (3 + 1) (Ivl.mk 65134136741975649864373797872305744 65134136742075398846648626039099992) = true :=
  @checkLoop_step c5u (Ivl.mk 65134136741975649864373797872305744 65134136742075398846648626039099992) (Ivl.mk 1200154493992834356665513108530823 1200154494084101985999455348359074) (Ivl.mk 66334291235968484221039310980836567 66334291236159500832648081387459066) 3
    (by decide) (by decide) (by decide!) (by decide) (by decide) c5s50

set_option maxRecDepth 1000000 in
/-- Level 48 of the C5 certificate (kernel evaluation of one interval
march sample). -/
theorem c5s48 : checkLoop c5u (4 + 1) (Ivl.mk 63960225852345058835881948881210514 63960225852401375463466643614351816) = true :=
  @checkLoop_step c5u (Ivl.mk 63960225852345058835881948881210514 63960225852401375463466643614351816) (Ivl.mk 1173910889630591028491848991095230 1173910889674023383181982424748176) (Ivl.mk 65134136741975649864373797872305744 65134136742075398846648626039099992) 4
    (by decide) (by decide) (by decide!) (by decide) (by decide) c5s49

set_option maxRecDepth 1000000 in
/-- Level 47 of the C5 certificate (kernel evaluation of one interval
march sample). -/
theorem c5s47 : checkLoop c5u (5 + 1) (Ivl.mk 62790901643052228628792255988966552 62790901643104493836471272807261299) = true :=
  @checkLoop_step c5u (Ivl.mk 62790901643052228628792255988966552 62790901643104493836471272807261299) (Ivl.mk 1169324209292830207089692892243962 1169324209296881626995370807090517) (Ivl.mk 63960225852345058835881948881210514 63960225852401375463466643614351816) 5
    (by decide) (by decide) (by decide!) (by decide) (by decide) c5s48

set_option maxRecDepth 1000000 in
/-- Level 46 of the C5 certificate (kernel evaluation of one interval
march sample). -/
theorem c5s46 : checkLoop c5u (6 + 1) (Ivl.mk 61668285016694249853838689290960480 61668285016733065579782413160392866) = true :=
  @checkLoop_step c5u (Ivl.mk 61668285016694249853838689290960480 61668285016733065579782413160392866) (Ivl.mk 1122616626357978774953566698006072 1122616626371428256688859646868433) (Ivl.mk 62790901643052228628792255988966552 62790901643104493836471272807261299) 6
    (by decide) (by decide) (by decide!) (by decide) (by decide) c5s47

set_option maxRecDepth 1000000 in
/-- Level 45 of the C5 certificate (kernel evaluation of one interval
march sample). -/
theorem c5s45 : checkLoop c5u (7 + 1) (Ivl.mk 60618773005302986802333584938294184 60618773005325752840967387309725505) = true :=
  @checkLoop_step c5u (Ivl.mk 60618773005302986802333584938294184 60618773005325752840967387309725505) (Ivl.mk 1049512011391263051505104352666296 1049512011407312738815025850667361) (Ivl.mk 61668285016694249853838689290960480 61668285016733065579782413160392866) 7
    (by decide) (by decide) (by decide!) (by decide) (by decide) c5s46

set_option maxRecDepth 1000000 in
/-- Level 44 of the C5 certificate (kernel evaluation of one interval
march sample). -/
theorem c5s44 : checkLoop c5u (8 + 1) (Ivl.mk 59638016784012199841894049226243428 59638016784023404456237334515359616) = true :=
  @checkLoop_step c5u (Ivl.mk 59638016784012199841894049226243428 59638016784023404456237334515359616) (Ivl.mk 980756221290786960439535712050756 980756221302348384730052794365889) (Ivl.mk 60618773005302986802333584938294184 60618773005325752840967387309725505) 8
    (by decide) (by decide) (by decide!) (by decide) (by decide) c5s45

set_option maxRecDepth 1000000 in
/-- Level 43 of the C5 certificate (kernel evaluation of one interval
march sample). -/
theorem c5s43 : checkLoop c5u (9 + 1) (Ivl.mk 58771597903467007472884813483674803 58771597903472416850892245540707989) = true :=
  @checkLoop_step c5u (Ivl.mk 58771597903467007472884813483674803 58771597903472416850892245540707989) (Ivl.mk 866418880545192369009235742568625 866418880550987605345088974651627) (Ivl.mk 59638016784012199841894049226243428 59638016784023404456237334515359616) 9
    (by decide) (by decide) (by decide!) (by decide) (by decide) c5s44

set_option maxRecDepth 1000000 in
/-- Level 42 of the C5 certificate (kernel evaluation of one interval
march sample). -/
theorem c5s42 : checkLoop c5u (10 + 1) (Ivl.mk 57952987975534294083240195744374456 57952987975537234874200736072831701) = true :=
  @checkLoop_step c5u (Ivl.mk 57952987975534294083240195744374456 57952987975537234874200736072831701) (Ivl.mk 818609927932713389644617739300347 818609927935181976691509467876288) (Ivl.mk 58771597903467007472884813483674803 58771597903472416850892245540707989) 10
    (by decide) (by decide) (by decide!) (by decide) (by decide) c5s43

set_option maxRecDepth 1000000 in
/-- Level 41 of the C5 certificate (kernel evaluation of one interval
march sample). -/
theorem c5s41 : checkLoop c5u (11 + 1) (Ivl.mk 57211886870783039116113259218023311 57211886870784506224193846387917185) = true :=
  @checkLoop_step c5u (Ivl.mk 57211886870783039116113259218023311 57211886870784506224193846387917185) (Ivl.mk 741101104751254967126936526351145 741101104752728650006889684914516) (Ivl.mk 57952987975534294083240195744374456 57952987975537234874200736072831701) 11
    (by decide) (by decide) (by decide!) (by decide) (by decide) c5s42

set_option maxRecDepth 1000000 in
/-- Level 40 of the C5 certificate (kernel evaluation of one interval
march sample). -/
theorem c5s40 : checkLoop c5u (12 + 1) (Ivl.mk 56627935084812154205914892940315444 56627935084812846649571774552523093) = true :=
  @checkLoop_step c5u (Ivl.mk 56627935084812154205914892940315444 56627935084812846649571774552523093) (Ivl.mk 583951785970884910198366277707867 583951785971659574622071835394092) (Ivl.mk 57211886870783039116113259218023311 57211886870784506224193846387917185) 12
    (by decide) (by decide) (by decide!) (by decide) (by decide) c5s41

set_option maxRecDepth 1000000 in
/-- Level 39 of the C5 certificate (kernel evaluation of one interval
march sample). -/
theorem c5s39 : checkLoop c5u (13 + 1) (Ivl.mk 56127180671365846355573092228118562 56127180671366230233950088794565550) = true :=
  @checkLoop_step c5u (Ivl.mk 56127180671365846355573092228118562 56127180671366230233950088794565550) (Ivl.mk 500754413446307850341800712196882 500754413446616415621685757957543) (Ivl.mk 56627935084812154205914892940315444 56627935084812846649571774552523093) 13
    (by decide) (by decide) (by decide!) (by decide) (by decide) c5s40

set_option maxRecDepth 1000000 in
/-- Level 38 of the C5 certificate (kernel evaluation of one interval
march sample). -/
theorem c5s38 : checkLoop c5u (14 + 1) (Ivl.mk 55658758165684326703834701123696961 55658758165684538493264241930250333) = true :=
  @checkLoop_step c5u (Ivl.mk 55658758165684326703834701123696961 55658758165684538493264241930250333) (Ivl.mk 468422505681519651738391104421601 468422505681691740685846864315217) (Ivl.mk 56127180671365846355573092228118562 56127180671366230233950088794565550) 14
    (by decide) (by decide) (by decide!) (by decide) (by decide) c5s39

set_option maxRecDepth 1000000 in
/-- Level 37 of the C5 certificate (kernel evaluation of one interval
march sample). -/
theorem c5s37 : checkLoop c5u (15 + 1) (Ivl.mk 55184598663618652312694869976323475 55184598663618767003120102969293732) = true :=
  @checkLoop_step c5u (Ivl.mk 55184598663618652312694869976323475 55184598663618767003120102969293732) (Ivl.mk 474159502065674391139831147373486 474159502065771490144138960956601) (Ivl.mk 55658758165684326703834701123696961 55658758165684538493264241930250333) 15
    (by decide) (by decide) (by decide!) (by decide) (by decide) c5s38

set_option maxRecDepth 1000000 in
/-- Level 36 of the C5 certificate (kernel evaluation of one interval
march sample). -/
theorem c5s36 : checkLoop c5u (16 + 1) (Ivl.mk 54684820850947249231075787465643642 54684820850947314940399700721013128) = true :=
  @checkLoop_step c5u (Ivl.mk 54684820850947249231075787465643642 54684820850947314940399700721013128) (Ivl.mk 499777812671403081619082510679833 499777812671452062720402248280604) (Ivl.mk 55184598663618652312694869976323475 55184598663618767003120102969293732) 16
    (by decide) (by decide) (by decide!) (by decide) (by decide) c5s37

set_option maxRecDepth 1000000 in
/-- Level 35 of the C5 certificate (kernel evaluation of one interval
march sample). -/
theorem c5s35 : checkLoop c5u (17 + 1) (Ivl.mk 54164169091358277494514851778393570 54164169091358316721834174041841794) = true :=
  @checkLoop_step c5u (Ivl.mk 54164169091358277494514851778393570 54164169091358316721834174041841794) (Ivl.mk 520651759588971736560935687250072 520651759588998218565526679171334) (Ivl.mk 54684820850947249231075787465643642 54684820850947314940399700721013128) 17
    (by decide) (by decide) (by decide!) (by decide) (by decide) c5s36

set_option maxRecDepth 1000000 in
/-- Level 34 of the C5 certificate (kernel evaluation of one interval
march sample). -/
theorem c5s34 : checkLoop c5u (18 + 1) (Ivl.mk 53622993886854057573731676429077759 53622993886854080516476932191452193) = true :=
  @checkLoop_step c5u (Ivl.mk 53622993886854057573731676429077759 53622993886854080516476932191452193) (Ivl.mk 541175204504219920783175349315811 541175204504236205357241850389601) (Ivl.mk 54164169091358277494514851778393570 54164169091358316721834174041841794) 18
    (by decide) (by decide) (by decide!) (by decide) (by decide) c5s35

set_option maxRecDepth 1000000 in
/-- Level 33 of the C5 certificate (kernel evaluation of one interval
march sample). -/
theorem c5s33 : checkLoop c5u (19 + 1) (Ivl.mk 53040638331881213202994692451917666 53040638331881226335979414352755440) = true :=
  @checkLoop_step c5u (Ivl.mk 53040638331881213202994692451917666 53040638331881226335979414352755440) (Ivl.mk 582355554972844370736983977160093 582355554972854180497517838696753) (Ivl.mk 53622993886854057573731676429077759 53622993886854080516476932191452193) 19
    (by decide) (by decide) (by decide!) (by decide) (by decide) c5s34

set_option maxRecDepth 1000000 in
/-- Level 32 of the C5 certificate (kernel evaluation of one interval
march sample). -/
theorem c5s32 : checkLoop c5u (20 + 1) (Ivl.mk 52393309819853854112235890876243829 52393309819853861580091209553093360) = true :=
  @checkLoop_step c5u (Ivl.mk 52393309819853854112235890876243829 52393309819853861580091209553093360) (Ivl.mk 647328512027359090758801575673837 647328512027364755888204799662080) (Ivl.mk 53040638331881213202994692451917666 53040638331881226335979414352755440) 20
    (by decide) (by decide) (by decide!) (by decide) (by decide) c5s33

set_option maxRecDepth 1000000 in
/-- Level 31 of the C5 certificate (kernel evaluation of one interval
march sample). -/
theorem c5s31 : checkLoop c5u (21 + 1) (Ivl.mk 51675935233662762414972331167514740 51675935233662766802819783399958271) = true :=
  @checkLoop_step c5u (Ivl.mk 51675935233662762414972331167514740 51675935233662766802819783399958271) (Ivl.mk 717374586191091697263559708729089 717374586191094777271426153135089) (Ivl.mk 52393309819853854112235890876243829 52393309819853861580091209553093360) 21
    (by decide) (by decide) (by decide!) (by decide) (by decide) c5s32

set_option maxRecDepth 1000000 in
/-- Level 30 of the C5 certificate (kernel evaluation of one interval
march sample). -/
theorem c5s30 : checkLoop c5u (22 + 1) (Ivl.mk 50882503647760339711505952769380836 50882503647760342516447951890167457) = true :=
  @checkLoop_step c5u (Ivl.mk 50882503647760339711505952769380836 50882503647760342516447951890167457) (Ivl.mk 793431585902422703466378398133904 793431585902424286371831509790814) (Ivl.mk 51675935233662762414972331167514740 51675935233662766802819783399958271) 22
    (by decide) (by decide) (by decide!) (by decide) (by decide) c5s31

set_option maxRecDepth 1000000 in
/-- Level 29 of the C5 certificate (kernel evaluation of one interval
march sample). -/
theorem c5s29 : checkLoop c5u (23 + 1) (Ivl.mk 49998923407843006855864681181690488 49998923407843008777895640107929945) = true :=
  @checkLoop_step c5u (Ivl.mk 49998923407843006855864681181690488 49998923407843008777895640107929945) (Ivl.mk 883580239917332855641271587690348 883580239917333738552311782237512) (Ivl.mk 50882503647760339711505952769380836 50882503647760342516447951890167457) 23
    (by decide) (by decide) (by decide!) (by decide) (by decide) c5s30

set_option maxRecDepth 1000000 in
/-- Level 28 of the C5 certificate (kernel evaluation of one interval
march sample). -/
theorem c5s28 : checkLoop c5u (24 + 1) (Ivl.mk 49123158662813347587462233408858565 49123158662813348853202487001275812) = true :=
  @checkLoop_step c5u (Ivl.mk 49123158662813347587462233408858565 49123158662813348853202487001275812) (Ivl.mk 875764745029659268402447772831923 875764745029659924693153106654133) (Ivl.mk 49998923407843006855864681181690488 49998923407843008777895640107929945) 24
    (by decide) (by decide) (by decide!) (by decide) (by decide) c5s29

set_option maxRecDepth 1000000 in
/-- Level 27 of the C5 certificate (kernel evaluation of one interval
march sample). -/
theorem c5s27 : checkLoop c5u (25 + 1) (Ivl.mk 48279517229161630716375922873107600 48279517229161631533142661316855584) = true :=
  @checkLoop_step c5u (Ivl.mk 48279517229161630716375922873107600 48279517229161631533142661316855584) (Ivl.mk 843641433651716871086310535750965 843641433651717320059825684420228) (Ivl.mk 49123158662813347587462233408858565 49123158662813348853202487001275812) 25
    (by decide) (by decide) (by decide!) (by decide) (by decide) c5s28

set_option maxRecDepth 1000000 in
/-- Level 26 of the C5 certificate (kernel evaluation of one interval
march sample). -/
theorem c5s26 : checkLoop c5u (26 + 1) (Ivl.mk 47436350027901282806464843348367272 47436350027901283299306488668486279) = true :=
  @checkLoop_step c5u (Ivl.mk 47436350027901282806464843348367272 47436350027901283299306488668486279) (Ivl.mk 843167201260347909911079524740328 843167201260348233836172648369305) (Ivl.mk 48279517229161630716375922873107600 48279517229161631533142661316855584) 26
    (by decide) (by decide) (by decide!) (by decide) (by decide) c5s27

set_option maxRecDepth 1000000 in
/-- Level 25 of the C5 certificate (kernel evaluation of one interval
march sample). -/
theorem c5s25 : checkLoop c5u (27 + 1) (Ivl.mk 46641127608406266160528994901506134 46641127608406266419896704268952855) = true :=
  @checkLoop_step c5u (Ivl.mk 46641127608406266160528994901506134 46641127608406266419896704268952855) (Ivl.mk 795222419495016645935848446861138 795222419495016879409784399533424) (Ivl.mk 47436350027901282806464843348367272 47436350027901283299306488668486279) 27
    (by decide) (by decide) (by decide!) (by decide) (by decide) c5s26

set_option maxRecDepth 1000000 in
/-- Level 24 of the C5 certificate (kernel evaluation of one interval
march sample). -/
theorem c5s24 : checkLoop c5u (28 + 1) (Ivl.mk 45898322267068558055462467071899942 45898322267068558188903376407063735) = true :=
  @checkLoop_step c5u (Ivl.mk 45898322267068558055462467071899942 45898322267068558188903376407063735) (Ivl.mk 742805341337708105066527829606192 742805341337708230993327861889120) (Ivl.mk 46641127608406266160528994901506134 46641127608406266419896704268952855) 28
    (by decide) (by decide) (by decide!) (by decide) (by decide) c5s25

set_option maxRecDepth 1000000 in
/-- Level 23 of the C5 certificate (kernel evaluation of one interval
march sample). -/
theorem c5s23 : checkLoop c5u (29 + 1) (Ivl.mk 45180664269851436905899145303662091 45180664269851436969641059270593488) = true :=
  @checkLoop_step c5u (Ivl.mk 45180664269851436905899145303662091 45180664269851436969641059270593488) (Ivl.mk 717657997217121149563321768237851 717657997217121219262317136470247) (Ivl.mk 45898322267068558055462467071899942 45898322267068558188903376407063735) 29
    (by decide) (by decide) (by decide!) (by decide) (by decide) c5s24

set_option maxRecDepth 1000000 in
/-- Level 22 of the C5 certificate (kernel evaluation of one interval
march sample). -/
theorem c5s22 : checkLoop c5u (30 + 1) (Ivl.mk 44466601837908497834301014579685023 44466601837908497862264398978197838) = true :=
  @checkLoop_step c5u (Ivl.mk 44466601837908497834301014579685023 44466601837908497862264398978197838) (Ivl.mk 714062431942939071598130723977068 714062431942939107376660292395650) (Ivl.mk 45180664269851436905899145303662091 45180664269851436969641059270593488) 30
    (by decide) (by decide) (by decide!) (by decide) (by decide) c5s23

set_option maxRecDepth 1000000 in
/-- Level 21 of the C5 certificate (kernel evaluation of one interval
march sample). -/
theorem c5s21 : checkLoop c5u (31 + 1) (Ivl.mk 43738744439175775278021034500143233 43738744439175775289579005560439359) = true :=
  @checkLoop_step c5u (Ivl.mk 43738744439175775278021034500143233 43738744439175775289579005560439359) (Ivl.mk 727857398732722556279980079541790 727857398732722572685393417758479) (Ivl.mk 44466601837908497834301014579685023 44466601837908497862264398978197838) 31
    (by decide) (by decide) (by decide!) (by decide) (by decide) c5s22

set_option maxRecDepth 1000000 in
/-- Level 20 of the C5 certificate (kernel evaluation of one interval
march sample). -/
theorem c5s20 : checkLoop c5u (32 + 1) (Ivl.mk 42971132441252476040475672528205415 42971132441252476045673015371489855) = true :=
  @checkLoop_step c5u (Ivl.mk 42971132441252476040475672528205415 42971132441252476045673015371489855) (Ivl.mk 767611997923299237545361971937818 767611997923299243905990188949504) (Ivl.mk 43738744439175775278021034500143233 43738744439175775289579005560439359) 32
    (by decide) (by decide) (by decide!) (by decide) (by decide) c5s21

set_option maxRecDepth 1000000 in
/-- Level 19 of the C5 certificate (kernel evaluation of one interval
march sample). -/
theorem c5s19 : checkLoop c5u (33 + 1) (Ivl.mk 42125083521456805084279359883336302 42125083521456805087071662761281475) = true :=
  @checkLoop_step c5u (Ivl.mk 42125083521456805084279359883336302 42125083521456805087071662761281475) (Ivl.mk 846048919795670956196312644869113 846048919795670958601352610208380) (Ivl.mk 42971132441252476040475672528205415 42971132441252476045673015371489855) 33
    (by decide) (by decide) (by decide!) (by decide) (by decide) c5s20

set_option maxRecDepth 1000000 in
/-- Level 18 of the C5 certificate (kernel evaluation of one interval
march sample). -/
theorem c5s18 : checkLoop c5u (34 + 1) (Ivl.mk 41195079155197991508050431326312901 41195079155197991509717905088318510) = true :=
  @checkLoop_step c5u (Ivl.mk 41195079155197991508050431326312901 41195079155197991509717905088318510) (Ivl.mk 930004366258813576228928557023401 930004366258813577353757672962965) (Ivl.mk 42125083521456805084279359883336302 42125083521456805087071662761281475) 34
    (by decide) (by decide) (by decide!) (by decide) (by decide) c5s19

set_option maxRecDepth 1000000 in
/-- Level 17 of the C5 certificate (kernel evaluation of one interval
march sample). -/
theorem c5s17 : checkLoop c5u (35 + 1) (Ivl.mk 40203370072300471668076909226513801 40203370072300471668855834215435035) = true :=
  @checkLoop_step c5u (Ivl.mk 40203370072300471668076909226513801 40203370072300471668855834215435035) (Ivl.mk 991709082897519839973522099799100 991709082897519840862070872883475) (Ivl.mk 41195079155197991508050431326312901 41195079155197991509717905088318510) 35
    (by decide) (by decide) (by decide!) (by decide) (by decide) c5s18

set_option maxRecDepth 1000000 in
/-- Level 16 of the C5 certificate (kernel evaluation of one interval
march sample). -/
theorem c5s16 : checkLoop c5u (36 + 1) (Ivl.mk 39117067375365704955592275057033715 39117067375365704955957600769790662) = true :=
  @checkLoop_step c5u (Ivl.mk 39117067375365704955592275057033715 39117067375365704955957600769790662) (Ivl.mk 1086302696934766712484634169480086 1086302696934766712898233445644373) (Ivl.mk 40203370072300471668076909226513801 40203370072300471668855834215435035) 36
    (by decide) (by decide) (by decide!) (by decide) (by decide) c5s17

set_option maxRecDepth 1000000 in
/-- Level 15 of the C5 certificate (kernel evaluation of one interval
march sample). -/
theorem c5s15 : checkLoop c5u (37 + 1) (Ivl.mk 37987506065528248427898061852433408 37987506065528248428053412936151455) = true :=
  @checkLoop_step c5u (Ivl.mk 37987506065528248427898061852433408 37987506065528248428053412936151455) (Ivl.mk 1129561309837456527694213204600307 1129561309837456527904187833639207) (Ivl.mk 39117067375365704955592275057033715 39117067375365704955957600769790662) 37
    (by decide) (by decide) (by decide!) (by decide) (by decide) c5s16

set_option maxRecDepth 1000000 in
/-- Level 14 of the C5 certificate (kernel evaluation of one interval
march sample). -/
theorem c5s14 : checkLoop c5u (38 + 1) (Ivl.mk 36770613253345333992676788757614500 36770613253345333992751777655174898) = true :=
  @checkLoop_step c5u (Ivl.mk 36770613253345333992676788757614500 36770613253345333992751777655174898) (Ivl.mk 1216892812182914435221273094818908 1216892812182914435301635280976557) (Ivl.mk 37987506065528248427898061852433408 37987506065528248428053412936151455) 38
    (by decide) (by decide) (by decide!) (by decide) (by decide) c5s15

set_option maxRecDepth 1000000 in
/-- Level 13 of the C5 certificate (kernel evaluation of one interval
march sample). -/
theorem c5s13 : checkLoop c5u (39 + 1) (Ivl.mk 35475583080652121146749117900622816 35475583080652121146795242199456256) = true :=
  @checkLoop_step c5u (Ivl.mk 35475583080652121146749117900622816 35475583080652121146795242199456256) (Ivl.mk 1295030172693212845927670856991684 1295030172693212845956535455718642) (Ivl.mk 36770613253345333992676788757614500 36770613253345333992751777655174898) 39
    (by decide) (by decide) (by decide!) (by decide) (by decide) c5s14

set_option maxRecDepth 1000000 in
/-- Level 12 of the C5 certificate (kernel evaluation of one interval
march sample). -/
theorem c5s12 : checkLoop c5u (40 + 1) (Ivl.mk 34139763795968550784708996133740454 34139763795968550784736847125140700) = true :=
  @checkLoop_step c5u (Ivl.mk 34139763795968550784708996133740454 34139763795968550784736847125140700) (Ivl.mk 1335819284683570362040121766882362 1335819284683570362058395074315556) (Ivl.mk 35475583080652121146749117900622816 35475583080652121146795242199456256) 40
    (by decide) (by decide) (by decide!) (by decide) (by decide) c5s13

set_option maxRecDepth 1000000 in
/-- Level 11 of the C5 certificate (kernel evaluation of one interval
march sample). -/
theorem c5s11 : checkLoop c5u (41 + 1) (Ivl.mk 32735235281350399691118428007289904 32735235281350399691139422122318396) = true :=
  @checkLoop_step c5u (Ivl.mk 32735235281350399691118428007289904 32735235281350399691139422122318396) (Ivl.mk 1404528514618151093590568126450550 1404528514618151093597425002822304) (Ivl.mk 34139763795968550784708996133740454 34139763795968550784736847125140700) 41
    (by decide) (by decide) (by decide!) (by decide) (by decide) c5s12

set_option maxRecDepth 1000000 in
/-- Level 10 of the C5 certificate (kernel evaluation of one interval
march sample). -/
theorem c5s10 : checkLoop c5u (42 + 1) (Ivl.mk 31164685501425026203442237728006514 31164685501425026203454851923629012) = true :=
  @checkLoop_step c5u (Ivl.mk 31164685501425026203442237728006514 31164685501425026203454851923629012) (Ivl.mk 1570549779925373487676190279283390 1570549779925373487684570198689384) (Ivl.mk 32735235281350399691118428007289904 32735235281350399691139422122318396) 42
    (by decide) (by decide) (by decide!) (by decide) (by decide) c5s11

set_option maxRecDepth 1000000 in
/-- Level 9 of the C5 certificate (kernel evaluation of one interval
march sample). -/
theorem c5s9 : checkLoop c5u (43 + 1) (Ivl.mk 29371537749103350230623161330363670 29371537749103350230631161785774467) = true :=
  @checkLoop_step c5u (Ivl.mk 29371537749103350230623161330363670 29371537749103350230631161785774467) (Ivl.mk 1793147752321675972819076397642844 1793147752321675972823690137854545) (Ivl.mk 31164685501425026203442237728006514 31164685501425026203454851923629012) 43
    (by decide) (by decide) (by decide!) (by decide) (by decide) c5s10

set_option maxRecDepth 1000000 in
/-- Level 8 of the C5 certificate (kernel evaluation of one interval
march sample). -/
theorem c5s8 : checkLoop c5u (44 + 1) (Ivl.mk 27445548885161246986528808685597401 27445548885161246986533866169079643) = true :=
  @checkLoop_step c5u (Ivl.mk 27445548885161246986528808685597401 27445548885161246986533866169079643) (Ivl.mk 1925988863942103244094352644766269 1925988863942103244097295616694824) (Ivl.mk 29371537749103350230623161330363670 29371537749103350230631161785774467) 44
    (by decide) (by decide) (by decide!) (by decide) (by decide) c5s9

set_option maxRecDepth 1000000 in
/-- Level 7 of the C5 certificate (kernel evaluation of one interval
march sample). -/
theorem c5s7 : checkLoop c5u (45 + 1) (Ivl.mk 25418902864700664141903605602451615 25418902864700664141906181874086755) = true :=
  @checkLoop_step c5u (Ivl.mk 25418902864700664141903605602451615 25418902864700664141906181874086755) (Ivl.mk 2026646020460582844625203083145786 2026646020460582844627684294992888) (Ivl.mk 27445548885161246986528808685597401 27445548885161246986533866169079643) 45
    (by decide) (by decide) (by decide!) (by decide) (by decide) c5s8

set_option maxRecDepth 1000000 in
/-- Level 6 of the C5 certificate (kernel evaluation of one interval
march sample). -/
theorem c5s6 : checkLoop c5u (46 + 1) (Ivl.mk 23230287516578922741738575886512318 23230287516578922741739783813936415) = true :=
  @checkLoop_step c5u (Ivl.mk 23230287516578922741738575886512318 23230287516578922741739783813936415) (Ivl.mk 2188615348121741400165029715939297 2188615348121741400166398060150340) (Ivl.mk 25418902864700664141903605602451615 25418902864700664141906181874086755) 46
    (by decide) (by decide) (by decide!) (by decide) (by decide) c5s7

set_option maxRecDepth 1000000 in
/-- Level 5 of the C5 certificate (kernel evaluation of one interval
march sample). -/
theorem c5s5 : checkLoop c5u (47 + 1) (Ivl.mk 20722591803212889953662245085414679 20722591803212889953662702303127484) = true :=
  @checkLoop_step c5u (Ivl.mk 20722591803212889953662245085414679 20722591803212889953662702303127484) (Ivl.mk 2507695713366032788076330801097639 2507695713366032788077081510808931) (Ivl.mk 23230287516578922741738575886512318 23230287516578922741739783813936415) 47
    (by decide) (by decide) (by decide!) (by decide) (by decide) c5s6

set_option maxRecDepth 1000000 in
/-- Level 4 of the C5 certificate (kernel evaluation of one interval
march sample). -/
theorem c5s4 : checkLoop c5u (48 + 1) (Ivl.mk 17817438245682807565596858136561394 17817438245682807565597220118567546) = true :=
  @checkLoop_step c5u (Ivl.mk 17817438245682807565596858136561394 17817438245682807565597220118567546) (Ivl.mk 2905153557530082388065386948853285 2905153557530082388065482184559938) (Ivl.mk 20722591803212889953662245085414679 20722591803212889953662702303127484) 48
    (by decide) (by decide) (by decide!) (by decide) (by decide) c5s5

set_option maxRecDepth 1000000 in
/-- Level 3 of the C5 certificate (kernel evaluation of one interval
march sample). -/
theorem c5s3 : checkLoop c5u (49 + 1) (Ivl.mk 14477679799782400062766424146056461 14477679799782400062766455614863226) = true :=
  @checkLoop_step c5u (Ivl.mk 14477679799782400062766424146056461 14477679799782400062766455614863226) (Ivl.mk 3339758445900407502830433990504933 3339758445900407502830764503704320) (Ivl.mk 17817438245682807565596858136561394 17817438245682807565597220118567546) 49
    (by decide) (by decide) (by decide!) (by decide) (by decide) c5s4

set_option maxRecDepth 1000000 in
/-- Level 2 of the C5 certificate (kernel evaluation of one interval
march sample). -/
theorem c5s2 : checkLoop c5u (50 + 1) (Ivl.mk 10557237587615938275709631661386751 10557237587615938275709631661386770) = true :=
  @checkLoop_step c5u (Ivl.mk 10557237587615938275709631661386751 10557237587615938275709631661386770) (Ivl.mk 3920442212166461787056792484669710 3920442212166461787056823953476456) (Ivl.mk 14477679799782400062766424146056461 14477679799782400062766455614863226) 50
    (by decide) (by decide) (by decide!) (by decide) (by decide) c5s3

set_option maxRecDepth 1000000 in
/-- Level 1 of the C5 certificate (kernel evaluation of one interval
march sample). -/
theorem c5s1 : checkLoop c5u (51 + 1) (Ivl.mk 5945179903022377634667418296957005 5945179903022377634667418296957015) = true :=
  @checkLoop_step c5u (Ivl.mk 5945179903022377634667418296957005 5945179903022377634667418296957015) (Ivl.mk 4612057684593560641042213364429746 4612057684593560641042213364429755) (Ivl.mk 10557237587615938275709631661386751 10557237587615938275709631661386770) 51
    (by decide) (by decide) (by decide!) (by decide) (by decide) c5s2

set_option maxRecDepth 1000000 in
/-- Level 0 of the C5 certificate (kernel evaluation of one interval
march sample). -/
theorem c5s0 : checkLoop c5u (52 + 1) (Ivl.mk 519229685853482762853049632922009 519229685853482762853049632922010) = true :=
  @checkLoop_step c5u (Ivl.mk 519229685853482762853049632922009 519229685853482762853049632922010) (Ivl.mk 5425950217168894871814368664034996 5425950217168894871814368664035005) (Ivl.mk 5945179903022377634667418296957005 5945179903022377634667418296957015) 52
    (by decide) (by decide) (by decide!) (by decide) (by decide) c5s1

/-- The 53-level interval certificate for the C5 march, assembled from the
per-level kernel evaluations. -/
theorem c5check_true : c5check = true := by
  have h : ofRatI 1 10 = Ivl.mk 519229685853482762853049632922009 519229685853482762853049632922010 := by decide
  rw [c5check, h]
  exact c5s0

/-! ## The claims -/

theorem animateIter_ready (rs : ℚ) : ∀ (n : ℕ) (s : InstanceState),
    s.hasMaterial = true → s.hasRenderer = true → s.hasScene = true → s.hasCamera = true →
    (animateIter rs n s).time = s.time + n * (0.016 * rs) := by
  intro n
  induction n with
  | zero =>
    intro s h1 h2 h3 h4
    simp [animateIter]
  | succ n ih =>
    intro s h1 h2 h3 h4
    simp only [animateIter]
    have hstep : (animate rs s).1 =
        { s with time := s.time + 0.016 * rs, uTime := s.time + 0.016 * rs } := by
      rw [animate, if_neg (by simp [h1, h2, h3, h4])]
    rw [hstep, ih _ (by simp [h1]) (by simp [h2]) (by simp [h3]) (by simp [h4])]
    push_cast
    ring

/-- C1: each `animate` tick of a fully initialized instance advances the
time accumulator by exactly `0.016 * rotationSpeed`, so after `N` ticks at
`rotationSpeed = 1` the accumulated time is `N * 0.016`.  But an instance
constructed with the option `rotationSpeed: 0` is not frozen: `0` is falsy
under the constructor's `||` defaulting, the resolved speed is the default
`0.3`, and a tick still advances the time (to `0.0048`). -/
theorem claim1_tick_advance (rs : ℚ) (n : ℕ) :
    (∀ s : InstanceState, s.hasMaterial = true → s.hasRenderer = true → s.hasScene = true →
      s.hasCamera = true → (animate rs s).1.time = s.time + 0.016 * rs) ∧
    (animateIter 1 n readyState).time = (n : ℚ) * 0.016 ∧
    (mkOptions { rotationSpeed := some 0 }).rotationSpeed = 0.3 ∧
    (animate (mkOptions { rotationSpeed := some 0 }).rotationSpeed readyState).1.time = 0.0048 := by
  refine ⟨?_, ?_, ?_, ?_⟩
  · intro s h1 h2 h3 h4
    rw [animate, if_neg (by simp [h1, h2, h3, h4])]
  · rw [animateIter_ready 1 n readyState rfl rfl rfl rfl]
    show (0 : ℚ) + n * (0.016 * 1) = n * 0.016
    ring
  · norm_num [mkOptions, orDefaultNum]
  · norm_num [mkOptions, orDefaultNum, animate, readyState]

/-- A constructor option `rotationSpeed: 0` does not yield a static field:
the resolved speed is not `0` and one tick moves the time accumulator. -/
theorem claim1_counterexample :
    (mkOptions { rotationSpeed := some 0 }).rotationSpeed ≠ 0 ∧
    (animateIter (mkOptions { rotationSpeed := some 0 }).rotationSpeed 1 readyState).time
      ≠ readyState.time := by
  norm_num [mkOptions, orDefaultNum, animateIter, animate, readyState]

/-- C2: the constructor performs no validation and defines no error class.
For every options bag, construction either returns an initialized instance
(when the container exists) or the silent early-return outcome — there is
no failure path — and an out-of-range value such as a negative `intensity`
is stored unchanged. -/
theorem claim2_no_validation (found : Bool) (bag : OptionsBag) :
    (constructorRun found bag = ConstructorOutcome.missingContainer ∨
      constructorRun found bag = ConstructorOutcome.initialized (mkOptions bag)) ∧
    (∀ q : ℚ, q ≠ 0 → (mkOptions { bag with intensity := some q }).intensity = q) := by
  constructor
  · rw [constructorRun]
    split_ifs <;> simp
  · intro q hq
    simp [mkOptions, orDefaultNum, hq]

/-- An invalid options bag (negative `intensity`, which the spec says must
be rejected with a `ConfigurationError`) is accepted: construction
succeeds and the negative values are kept. -/
theorem claim2_counterexample :
    constructorRun true { intensity := some (-1) }
      = ConstructorOutcome.initialized (mkOptions { intensity := some (-1) }) ∧
    (mkOptions { intensity := some (-1) }).intensity = -1 ∧
    (mkOptions { glowAmount := some (-1) }).glowAmount = -1 := by
  norm_num [constructorRun, mkOptions, orDefaultNum]

/-- C3: the debounced resize body checks only that renderer, material and
container exist — the new dimensions are propagated to the renderer and
the `uResolution` uniform unconditionally, a zero dimension included, and
the animation loop keeps rendering afterwards. -/
theorem claim3_resize_no_guard (w h : ℚ) :
    (handleResizeFire w h readyState).resolution = (w, h) ∧
    (handleResizeFire w h readyState).rendererSize = (w, h) ∧
    (animate 1 (handleResizeFire w h readyState)).2 = true := by
  refine ⟨?_, ?_, ?_⟩ <;> simp [handleResizeFire, animate, readyState]

/-- A resize to width `0` is propagated like any other: the resolution
uniform becomes `(0, 100)` and a render is still issued. -/
theorem claim3_counterexample :
    (handleResizeFire 0 100 readyState).resolution = (0, 100) ∧
    (handleResizeFire 0 100 readyState).rendererSize = (0, 100) ∧
    (animate 1 (handleResizeFire 0 100 readyState)).2 = true := by
  norm_num [handleResizeFire, animate, readyState]

/-- C4: the pixel ratio handed to `setPixelRatio` is `min(devicePixelRatio,
2)`: it is capped at 2, but for any ratio at most 2 it is passed through
unchanged — there is no lower clamp at 1. -/
theorem claim4_pixel_ratio_cap (w h dpr : ℚ) :
    effectivePixelRatioOf dpr ≤ 2 ∧
    (dpr ≤ 2 → effectivePixelRatioOf dpr = dpr) ∧
    effectivePixelDims w h dpr = (w * min dpr 2, h * min dpr 2) :=
  ⟨min_le_right dpr 2, fun hle => min_eq_left hle, rfl⟩

/-- A device pixel ratio of `1/2` is not raised to `1`. -/
theorem claim4_counterexample :
    effectivePixelRatioOf (1 / 2 : ℚ) = 1 / 2 ∧ effectivePixelRatioOf (1 / 2 : ℚ) < 1 := by
  have h : effectivePixelRatioOf (1 / 2 : ℚ) = 1 / 2 := min_eq_left (by norm_num)
  exact ⟨h, by rw [h]; norm_num⟩

/-- C5: with `pillarWidth = 3.0` and `pillarHeight = 0.4`, evaluating the
fragment-shader march at `uv = (0, 0)` with `time = 0`, non-interactive
and the pointer at zero, the raymarch loop exits through its break
condition after strictly fewer than 100 iterations, whatever the gradient
colors. -/
theorem claim5_march_terminates (topColor bottomColor : Vec3R) :
    (shaderMarch ⟨0, 0⟩ 0 false ⟨0, 0⟩ 3 0.4 0 topColor bottomColor).2.1 = true ∧
    (shaderMarch ⟨0, 0⟩ 0 false ⟨0, 0⟩ 3 0.4 0 topColor bottomColor).1 < 100 := by
  rw [shaderMarch_c5_eq]
  have h := @checkLoop_sound 3 0.4 0 0 ⟨0, 0, 1⟩ topColor bottomColor c5u c5u_matches
    (fun F dp color hF hdp => c5_tail F dp color hF hdp)
    53 (ofRatI 1 10) 0.1 (memb_congr (@ofRatI_mem 1 10 (by norm_num)) (by norm_num))
    c5check_true 100 ⟨0, 0, 0⟩ (by omega)
  exact ⟨h.1, by omega⟩

set_option maxHeartbeats 2000000 in
/-- C6: every release step of `destroy` is individually guarded, so a
partially-initialized instance tears down safely and the DOM child is
removed at most once even across two consecutive calls.  But `destroy`
never clears the instance fields, so a second call repeats the `dispose`
calls on renderer, material and geometry. -/
theorem claim6_destroy_guarded (s : TeardownState) :
    (destroyTwiceActs s).count TeardownAct.removeDomElement ≤ 1 ∧
    (TeardownAct.disposeRenderer ∈ (destroyRun s).2 ↔ s.hasRenderer = true) ∧
    (TeardownAct.disposeMaterial ∈ (destroyRun s).2 ↔ s.hasMaterial = true) ∧
    (TeardownAct.disposeGeometry ∈ (destroyRun s).2 ↔ s.hasGeometry = true) := by
  simp only [destroyTwiceActs, destroyRun]
  split_ifs <;>
    simp_all [List.count_append, List.count_cons, List.count_nil]

/-- Calling `destroy` twice on a fully initialized instance disposes the
renderer, the material and the geometry twice each. -/
theorem claim6_counterexample :
    (destroyTwiceActs fullTeardownState).count TeardownAct.disposeRenderer = 2 ∧
    (destroyTwiceActs fullTeardownState).count TeardownAct.disposeMaterial = 2 ∧
    (destroyTwiceActs fullTeardownState).count TeardownAct.disposeGeometry = 2 := by decide

/-- C7: when the WebGL capability probe fails, `init` returns without
creating the scene, renderer, material, mesh, listeners or animation loop,
sets the container background to `"transparent"`, and throws nothing —
whatever the prior background and whether renderer construction would have
succeeded. -/
theorem claim7_degraded_mode (rendererOk : Bool) (bg0 : String) :
    (initRun false rendererOk bg0).sceneCreated = false ∧
    (initRun false rendererOk bg0).rendererCreated = false ∧
    (initRun false rendererOk bg0).materialCreated = false ∧
    (initRun false rendererOk bg0).meshCreated = false ∧
    (initRun false rendererOk bg0).listenersAttached = false ∧
    (initRun false rendererOk bg0).animationStarted = false ∧
    (initRun false rendererOk bg0).containerBackground = "transparent" ∧
    (initRun false rendererOk bg0).threw = false :=
  ⟨rfl, rfl, rfl, rfl, rfl, rfl, rfl, rfl⟩

theorem handleMouseMove_cases (t : ℚ) (p : ℚ × ℚ) (s : ThrottleState) :
    ((∃ e, s.blockedUntil = some e ∧ t < e) ∧ handleMouseMove t p s = (s, false)) ∨
    handleMouseMove t p s = ({ blockedUntil := some (t + 16), mouse := p }, true) := by
  rcases hb : s.blockedUntil with _ | e
  · right
    simp only [handleMouseMove, hb]
  · by_cases hlt : t < e
    · left
      refine ⟨⟨e, by simp [hb], hlt⟩, ?_⟩
      simp only [handleMouseMove, hb, hlt, if_true]
    · right
      simp only [handleMouseMove, hb, hlt, if_false]

theorem handleMouseMove_drop (t : ℚ) (p : ℚ × ℚ) (s : ThrottleState)
    (h : (handleMouseMove t p s).2 = false) : (handleMouseMove t p s).1 = s := by
  rcases handleMouseMove_cases t p s with ⟨-, heq⟩ | heq
  · rw [heq]
  · rw [heq] at h
    simp at h

theorem processEvents_blocked (e : ℚ) :
    ∀ (evs : List (ℚ × (ℚ × ℚ))) (s : ThrottleState),
      s.blockedUntil = some e → (∀ ev ∈ evs, ev.1 < e) → (processEvents evs s).2 = 0 := by
  intro evs
  induction evs with
  | nil => intro s _ _; rfl
  | cons ev rest ih =>
    intro s hb hlt
    have hdrop : handleMouseMove ev.1 ev.2 s = (s, false) := by
      have h1 := hlt ev (List.mem_cons_self ev rest)
      simp only [handleMouseMove, hb, h1, if_true]
    simp only [processEvents, hdrop]
    have hr := ih s hb (fun x hx => hlt x (List.mem_cons_of_mem _ hx))
    simp [hr]

theorem processEvents_window (t0 : ℚ) :
    ∀ (evs : List (ℚ × (ℚ × ℚ))), (∀ ev ∈ evs, t0 ≤ ev.1 ∧ ev.1 < t0 + 16) →
      ∀ s : ThrottleState, (processEvents evs s).2 ≤ 1 := by
  intro evs
  induction evs with
  | nil => intro _ s; norm_num [processEvents]
  | cons ev rest ih =>
    intro hw s
    have hw1 := hw ev (List.mem_cons_self ev rest)
    have hwr : ∀ x ∈ rest, t0 ≤ x.1 ∧ x.1 < t0 + 16 :=
      fun x hx => hw x (List.mem_cons_of_mem _ hx)
    rcases handleMouseMove_cases ev.1 ev.2 s with ⟨-, heq⟩ | heq
    · simp only [processEvents, heq]
      have := ih hwr s
      simpa using this
    · simp only [processEvents, heq]
      have hzero : (processEvents rest
          ({ blockedUntil := some (ev.1 + 16), mouse := ev.2 } : ThrottleState)).2 = 0 := by
        refine processEvents_blocked (ev.1 + 16) rest _ rfl ?_
        intro x hx
        have := (hwr x hx).2
        have := hw1.1
        linarith
      simp [hzero]

/-- C8: any sequence of pointer-move events all delivered within a single
16 ms window produces at most one accepted update of the shared mouse
position — whatever the initial throttle state — and a dropped event
leaves the state (including the stored position) untouched: nothing is
queued for later application. -/
theorem claim8_throttle (t0 : ℚ) (evs : List (ℚ × (ℚ × ℚ)))
    (hw : ∀ ev ∈ evs, t0 ≤ ev.1 ∧ ev.1 < t0 + 16) (s : ThrottleState) :
    (processEvents evs s).2 ≤ 1 ∧
    (∀ (t : ℚ) (p : ℚ × ℚ) (s1 : ThrottleState),
      (handleMouseMove t p s1).2 = false → (handleMouseMove t p s1).1 = s1) :=
  ⟨processEvents_window t0 evs hw s, handleMouseMove_drop⟩

/-- Witness for C8: three events at `t = 0, 5, 10` all inside the window
`[0, 16)` yield at most one accepted update. -/
theorem claim8_throttle_witness :
    (∀ ev ∈ [((0 : ℚ), ((0 : ℚ), (0 : ℚ))), (5, (1, 1)), (10, (2, 2))],
      (0 : ℚ) ≤ ev.1 ∧ ev.1 < 0 + 16) ∧
    ((processEvents [((0 : ℚ), ((0 : ℚ), (0 : ℚ))), (5, (1, 1)), (10, (2, 2))]
        ⟨none, (0, 0)⟩).2 ≤ 1 ∧
      (∀ (t : ℚ) (p : ℚ × ℚ) (s1 : ThrottleState),
        (handleMouseMove t p s1).2 = false → (handleMouseMove t p s1).1 = s1)) :=
  ⟨by intro ev hev; simp only [List.mem_cons, List.not_mem_nil, or_false] at hev;
      rcases hev with h | h | h <;> subst h <;> norm_num,
    claim8_throttle 0 _
      (by intro ev hev; simp only [List.mem_cons, List.not_mem_nil, or_false] at hev;
          rcases hev with h | h | h <;> subst h <;> norm_num)
      ⟨none, (0, 0)⟩⟩

/-- C9: the ray's horizontal-plane rotation angle is `mouse.x * π * 2`
exactly when the instance is interactive and the pointer magnitude is
positive, and `time * 0.3` in every other case; in particular, with
`interactive = false` the angle is the same as for a pointer of length
zero, whatever the pointer state. -/
theorem claim9_angle_selection (interactive : Bool) (mouse : Vec2R) (time : ℝ) :
    (interactive = true ∧ 0 < length2 mouse →
      rayRotationAngle interactive mouse time = mouse.x * shaderPI * 2) ∧
    (¬(interactive = true ∧ 0 < length2 mouse) →
      rayRotationAngle interactive mouse time = time * 0.3) ∧
    rayRotationAngle false mouse time = rayRotationAngle false ⟨0, 0⟩ time := by
  refine ⟨fun h => ?_, fun h => ?_, ?_⟩
  · rw [rayRotationAngle, if_pos h]
  · rw [rayRotationAngle, if_neg h]
  · rw [rayRotationAngle, rayRotationAngle, if_neg (by simp), if_neg (by simp)]

/-- C10: in every march iteration and for all inputs the field value is at
least `0.01` (an absolute value scaled by `0.15` plus the `0.01` offset),
so the surface-hit branch `fieldValue < EPSILON` is unreachable and the
break condition is equivalent to the depth test `depth > 50`; each depth
advance is therefore at least `0.01`. -/
theorem claim10_field_floor (pw ph t angle : ℝ) (dir : Vec3R) (depth : ℝ) :
    0.01 ≤ marchSample pw ph t angle dir depth ∧
    ¬(marchSample pw ph t angle dir depth < shaderEPS) ∧
    ((marchSample pw ph t angle dir depth < shaderEPS ∨ depth > 50) ↔ depth > 50) := by
  have key : ∀ b : ℝ, (0.01 : ℝ) ≤ |b| * 0.15 + 0.01 := by
    intro b
    nlinarith [abs_nonneg b]
  have h1 : 0.01 ≤ marchSample pw ph t angle dir depth := by
    simp only [marchSample]
    exact key _
  have h2 : ¬(marchSample pw ph t angle dir depth < shaderEPS) := by
    unfold shaderEPS
    intro h
    linarith
  exact ⟨h1, h2, or_iff_right h2⟩

end LightPillar
